import Mathlib

/-!
# stringlib (`str.h`): a shallow embedding

The C header `str.h` defines a byte-string type `string_t` (a pointer, a
length and a capacity) together with lifecycle, view, mutation, search and
comparison functions.  This file embeds those functions over a flat
byte-addressed memory and states the library's contract about them.  The
search and the comparison are embedded once for each build: without vector
support (`string_find_char`, `string_compare`), with SSE2 (`..._sse2`) and
with AVX (`..._avx`).

Modelling conventions
* Memory is a total map from 64-bit addresses to bytes.  Accesses are not
  checked against allocation bounds; address `0` is the null pointer.
* `int64_t` arithmetic is two's complement (`wrapI64`), `uint64_t` arithmetic
  is modulo `2^64` (`wrapU64`), conversion to `int8_t` is modulo `2^8`
  (`wrapI8`); `char` is signed, as on the x86 targets the header is written
  for (it includes `immintrin.h`).
* The struct a `string_t*` argument points to is passed and returned by
  value; it does not live in the byte memory.
* Functions the header calls but does not define (the callbacks of an
  allocator descriptor, and `aligned_alloc`, `calloc`, `free`, `realloc`)
  are parameters: each is a transformer of the memory and of a state that is
  private to the allocation functions.  Every such call is recorded, in
  order, in the world's call log.
-/

namespace StringLib

/-! ## Machine integers, bytes and memory -/

/-- A byte of memory: the object representation of a C `char`. -/
abbrev Byte := Fin 256

/-- Flat byte-addressed memory. -/
abbrev Mem := Nat → Byte

/-- Reduction of a mathematical integer to `uint64_t`. -/
def wrapU64 (x : Int) : Nat := (x % 18446744073709551616).toNat

/-- Reduction of a mathematical integer to `int64_t` (two's complement). -/
def wrapI64 (x : Int) : Int :=
  (x + 9223372036854775808) % 18446744073709551616 - 9223372036854775808

/-- Reduction of a mathematical integer to `int8_t` (two's complement). -/
def wrapI8 (x : Int) : Int := (x + 128) % 256 - 128

/-- The value of a byte read as a (signed) `char`. -/
def char_val (b : Byte) : Int := if b.val < 128 then (b.val : Int) else (b.val : Int) - 256

/-- Pointer arithmetic `p + i` on a `char*`, as a 64-bit address. -/
def ptr_add (p : Nat) (i : Int) : Nat := wrapU64 ((p : Int) + i)

/-- The assignment `*a = b`. -/
def store (m : Mem) (a : Nat) (b : Byte) : Mem := fun x => if x = a then b else m x

/-- The libc call `memcpy(dst, src, n)`: the `n` bytes at `src`, as they are
before the call, are written at `dst`.  (C leaves the call undefined when the
two ranges overlap; the model then gives the result of `memmove`.) -/
def memcpy (m : Mem) (dst src n : Nat) : Mem :=
  fun a => if dst ≤ a ∧ a < dst + n then m (src + (a - dst)) else m a

/-- Scan of `strlen`: `i` bytes have been passed, `fuel` addresses remain. -/
def strlen_from (m : Mem) (p : Nat) : Nat → Nat → Nat
  | 0, i => i
  | fuel + 1, i => if m (p + i) = 0 then i else strlen_from m p fuel (i + 1)

/-- The libc call `strlen(p)`: the offset of the first zero byte at or after
`p`.  The scan is bounded by the size of the address space. -/
def strlen (m : Mem) (p : Nat) : Nat := strlen_from m p 18446744073709551616 0

/-! ## The string type -/

/-- The struct `string_t` of `str.h`: lines 6-10. -/
structure string_t where
  c_str : Nat
  len : Int
  capacity : Int
deriving DecidableEq, Repr

/-- The value of `string_t str = {0}`. -/
def string_zero : string_t := ⟨0, 0, 0⟩

/-! ## View operations -/

/-- The function `string_get` (str.h:155-161). -/
def string_get (m : Mem) (c_str : Nat) : string_t :=
  ⟨c_str, wrapI64 (strlen m c_str), 0⟩

/-- The function `string_get_substring` (str.h:164-171). -/
def string_get_substring (string : string_t) (index len : Int) : string_t :=
  if index ≥ string.len ∨ len > string.len ∨ wrapI64 (index + len) > string.len ∨ len = 0 then
    string_zero
  else
    ⟨ptr_add string.c_str index, len, 0⟩

/-! ## Search -/

/-- The loop of the portable path of `string_find_char` (str.h:243-245),
entered with loop variable `i`; `n` bounds the iterations still to run. -/
def string_find_char_loop (m : Mem) (str : string_t) (start_index : Int) (target : Byte) :
    Nat → Int → Int
  | 0, _ => -1
  | n + 1, i =>
    if i < str.len then
      if m (ptr_add str.c_str i) = target then wrapI64 (i + start_index)
      else string_find_char_loop m str start_index target n (wrapI64 (i + 1))
    else -1

/-- The function `string_find_char` as compiled without vector support
(str.h:179, 243-246): the loop runs at most `str.len - start_index` times. -/
def string_find_char (m : Mem) (str : string_t) (start_index : Int) (target : Byte) : Int :=
  string_find_char_loop m str start_index target (str.len - start_index).toNat start_index

/-! ## Comparison -/

/-- The signed difference `a - b` of two `char` values, returned as `int8_t`. -/
def char_diff (a b : Byte) : Int := wrapI8 (char_val a - char_val b)

/-- The byte-by-byte loop of `string_compare` (str.h:289-291), entered with
loop variable `i`; `n` bounds the iterations still to run. -/
def string_compare_loop (m : Mem) (str1 str2 : string_t) (min_len : Int) : Nat → Int → Int
  | 0, _ => 0
  | n + 1, i =>
    if i < wrapI64 (min_len + 1) then
      if m (ptr_add str1.c_str i) ≠ m (ptr_add str2.c_str i) then
        char_diff (m (ptr_add str1.c_str i)) (m (ptr_add str2.c_str i))
      else string_compare_loop m str1 str2 min_len n (wrapI64 (i + 1))
    else 0

/-- The function `string_compare` as compiled without vector support
(str.h:252-255, 289-294): the loop runs at most `min_len + 1` times. -/
def string_compare (m : Mem) (str1 str2 : string_t) : Int :=
  if m (ptr_add str1.c_str 0) ≠ m (ptr_add str2.c_str 0) then
    char_diff (m (ptr_add str1.c_str 0)) (m (ptr_add str2.c_str 0))
  else
    let min_len := if str1.len < str2.len then str1.len else str2.len
    string_compare_loop m str1 str2 min_len (wrapI64 (min_len + 1)).toNat 0

/-! ## Mutation operations

Each takes the memory and the value of `*dst`, and returns the `int8_t`
result, the memory and the value of `*dst` after the call. -/

/-- The function `string_copy_into` (str.h:116-120). -/
def string_copy_into (m : Mem) (dst src : string_t) : Int × Mem × string_t :=
  if dst.capacity < src.len then (0, m, dst)
  else (1, memcpy m dst.c_str src.c_str (wrapU64 (wrapI64 (src.len + 1))), dst)

/-- The function `string_cat` (str.h:122-128). -/
def string_cat (m : Mem) (dst src : string_t) : Int × Mem × string_t :=
  if wrapI64 (dst.capacity - dst.len) < src.len then (0, m, dst)
  else
    let m1 := memcpy m (ptr_add dst.c_str dst.len) src.c_str (wrapU64 src.len)
    let len1 := wrapI64 (dst.len + src.len)
    (1, store m1 (ptr_add dst.c_str len1) 0, ⟨dst.c_str, len1, dst.capacity⟩)

/-! ## Allocation functions and the world -/

/-- A call to a function that `str.h` uses but does not define. -/
inductive Call where
  /-- The callback `allocator->alloc(user_data, size, alignment)`. -/
  | alloc (user_data size alignment : Nat)
  /-- The callback `allocator->free(user_data, addr)`. -/
  | free (user_data addr : Nat)
  /-- The callback `allocator->realloc(user_data, addr, size)`. -/
  | realloc (user_data addr size : Nat)
  /-- The libc call `aligned_alloc(alignment, size)`. -/
  | aligned_alloc (alignment size : Nat)
  /-- The libc call `calloc(nmemb, size)`. -/
  | calloc (nmemb size : Nat)
  /-- The libc call `free(addr)`. -/
  | libc_free (addr : Nat)
  /-- The libc call `realloc(addr, size)`. -/
  | libc_realloc (addr size : Nat)
deriving DecidableEq, Repr

/-- An external function: from the memory and the private state of the
allocation functions to its result and their new values. -/
abbrev Ext (σ α : Type) := Mem → σ → α × Mem × σ

/-- The struct `string_allocation_callbacks_t` (str.h:12-17); a null function
pointer is `none`, a returned null pointer is the address `0`. -/
structure string_allocation_callbacks_t (σ : Type) where
  alloc : Option (Nat → Nat → Nat → Ext σ Nat)
  free : Option (Nat → Nat → Ext σ Unit)
  realloc : Option (Nat → Nat → Nat → Ext σ Nat)
  user_data : Nat

/-- The default heap: the functions of `malloc.h` that `str.h` calls. -/
structure Libc (σ : Type) where
  aligned_alloc : Nat → Nat → Ext σ Nat
  calloc : Nat → Nat → Ext σ Nat
  free : Nat → Ext σ Unit
  realloc : Nat → Nat → Ext σ Nat

/-- The state a call runs in: memory, the private state of the allocation
functions, and the log of the calls made to them, oldest first. -/
structure World (σ : Type) where
  mem : Mem
  st : σ
  calls : List Call

/-- Run the external function `f` and log it as the call `c`. -/
def World.invoke {σ α : Type} (w : World σ) (c : Call) (f : Ext σ α) : α × World σ :=
  ((f w.mem w.st).1, ⟨(f w.mem w.st).2.1, (f w.mem w.st).2.2, w.calls ++ [c]⟩)

/-- The addresses passed to a release function, in call order. -/
def releases : List Call → List Nat
  | [] => []
  | Call.free _ addr :: cs => addr :: releases cs
  | Call.libc_free addr :: cs => addr :: releases cs
  | _ :: cs => releases cs

/-! ## Lifecycle operations -/

/-- Lines 76-79 of `string_create`: the length of the source becomes length and
capacity, and `len` bytes are copied to the block `p`. -/
def string_create_fill {σ : Type} (str_tmp : string_t) (p : Nat) (w : World σ) :
    string_t × World σ :=
  (⟨p, str_tmp.len, str_tmp.len⟩,
   ⟨memcpy w.mem p str_tmp.c_str (wrapU64 str_tmp.len), w.st, w.calls⟩)

/-- The function `string_create` (str.h:63-80); `allocator = none` is the null
descriptor pointer. -/
def string_create {σ : Type} (L : Libc σ) (c_str : Nat)
    (allocator : Option (string_allocation_callbacks_t σ)) (w : World σ) : string_t × World σ :=
  let str_tmp := string_get w.mem c_str
  let size := wrapU64 (wrapI64 (str_tmp.len + 1))
  match allocator with
  | some a =>
    match a.alloc with
    | some f =>
      let r := w.invoke (Call.alloc a.user_data size 4) (f a.user_data size 4)
      if r.1 = 0 then (string_zero, r.2) else string_create_fill str_tmp r.1 r.2
    | none => string_create_fill str_tmp 0 w
  | none =>
    let r := w.invoke (Call.aligned_alloc 4 size) (L.aligned_alloc 4 size)
    if r.1 = 0 then (string_zero, r.2) else string_create_fill str_tmp r.1 r.2

/-- The function `string_destroy` (str.h:83-94). -/
def string_destroy {σ : Type} (L : Libc σ) (string : string_t)
    (allocator : Option (string_allocation_callbacks_t σ)) (w : World σ) : Int × World σ :=
  if string.c_str = 0 ∨ string.len = 0 then (0, w)
  else
    match allocator with
    | some a =>
      match a.free with
      | none => (0, w)
      | some g =>
        (1, (w.invoke (Call.free a.user_data string.c_str) (g a.user_data string.c_str)).2)
    | none => (1, (w.invoke (Call.libc_free string.c_str) (L.free string.c_str)).2)

/-- The function `string_copy` (str.h:97-113).  Its lines 109-112 are the
lines 76-79 of `string_create`, with the argument in place of `str_tmp`. -/
def string_copy {σ : Type} (L : Libc σ) (string : string_t)
    (allocator : Option (string_allocation_callbacks_t σ)) (w : World σ) : string_t × World σ :=
  let size := wrapU64 (wrapI64 (string.len + 1))
  match allocator with
  | some a =>
    match a.alloc with
    | some f =>
      let r := w.invoke (Call.alloc a.user_data size 16) (f a.user_data size 16)
      if r.1 = 0 then (string_zero, r.2) else string_create_fill string r.1 r.2
    | none => string_create_fill string 0 w
  | none =>
    let r := w.invoke (Call.calloc 1 size) (L.calloc 1 size)
    if r.1 = 0 then (string_zero, r.2) else string_create_fill string r.1 r.2

/-- The function `string_resize` (str.h:130-153); `new_size` is the value of
the `uint64_t` argument.  The result is the `int8_t` returned, the value of
`*string` after the call, and the world after the call. -/
def string_resize {σ : Type} (L : Libc σ) (string : string_t) (new_size : Nat)
    (allocator : Option (string_allocation_callbacks_t σ)) (w : World σ) :
    Int × string_t × World σ :=
  let size := wrapU64 ((new_size : Int) + 1)
  match allocator with
  | some a =>
    match a.realloc with
    | some f =>
      let r := w.invoke (Call.realloc a.user_data string.c_str size)
        (f a.user_data string.c_str size)
      if r.1 = 0 then (0, string, r.2)
      else (1, ⟨r.1, string.len, wrapI64 new_size⟩, r.2)
    | none =>
      match a.alloc, a.free with
      | some f, some g =>
        let r := w.invoke (Call.alloc a.user_data size 16) (f a.user_data size 16)
        let min_size := if new_size < wrapU64 string.len then new_size else wrapU64 string.len
        let w1 : World σ := ⟨memcpy r.2.mem r.1 string.c_str min_size, r.2.st, r.2.calls⟩
        let w2 := (w1.invoke (Call.free a.user_data string.c_str)
          (g a.user_data string.c_str)).2
        (1, ⟨r.1, string.len, wrapI64 new_size⟩, w2)
      | _, _ => (1, ⟨string.c_str, string.len, wrapI64 new_size⟩, w)
  | none =>
    let r := w.invoke (Call.libc_realloc string.c_str size) (L.realloc string.c_str size)
    if string.c_str = 0 then (0, string, r.2)
    else (1, ⟨r.1, string.len, wrapI64 new_size⟩, r.2)

/-! ## Substring search -/

/-- The function `string_find_substring` (str.h:174-176): its body is
`return 0;`. -/
def string_find_substring (_string : string_t) (_start_index : Int) (_target : string_t) : Int :=
  0

/-! ## Vector paths

The AVX and the SSE2 branch of each function have the same text up to the
lane width (32 or 16 bytes) and, in `string_compare`, the constant of the loop
bound (30 or 14); one definition, with those as parameters, embeds both. -/

/-- The count `__builtin_ctz(x)` for a 32-bit `x`, `fuel` bits still to
look at (C leaves the call undefined at `x = 0`). -/
def ctz_from : Nat → Nat → Nat
  | 0, _ => 0
  | fuel + 1, x => if x % 2 = 1 then 0 else ctz_from fuel (x / 2) + 1

/-- The count of trailing zero bits `__builtin_ctz(x)` of a 32-bit value. -/
def ctz (x : Nat) : Nat := ctz_from 32 x

/-- The value `movemask_epi8(cmpeq_epi8(data, TARGET))` for the `w` bytes
`data` loaded from `addr`: bit `k` is set when the byte at `addr + k` equals
`target`. -/
def target_mask (m : Mem) (addr : Nat) (target : Byte) : Nat → Nat
  | 0 => 0
  | k + 1 => target_mask m addr target k + (if m (addr + k) = target then 2 ^ k else 0)

/-- The `while` loop of the vector paths of `string_find_char` (str.h:200-206,
230-236) with lane width `w`, entered with the given `mov_mask` and `offset`;
the first argument bounds the iterations still to run.  The result is
`mov_mask` and `offset` at the exit of the loop. -/
def string_find_char_scan (w : Nat) (m : Mem) (target : Byte) (aligned_addr diff len : Nat) :
    Nat → Nat → Int → Nat × Int
  | 0, mov_mask, offset => (mov_mask, offset)
  | fuel + 1, mov_mask, offset =>
    if mov_mask = 0 ∧ wrapU64 (offset - (diff : Int)) < len then
      string_find_char_scan w m target aligned_addr diff len fuel
        (target_mask m (wrapU64 ((aligned_addr : Int) + offset)) target w)
        (wrapI64 (offset + (w : Int)))
    else (mov_mask, offset)

/-- A vector path of `string_find_char` with lane width `w` (str.h:183-209 for
`w = 32`, 213-239 for `w = 16`).  Both paths round the start address down to
a multiple of 32.  The loop is given as many iterations as there are
addresses. -/
def string_find_char_vector (w : Nat) (m : Mem) (str : string_t) (start_index : Int)
    (target : Byte) : Int :=
  let addr := ptr_add str.c_str start_index
  let aligned_addr := addr - addr % 32
  let diff := addr - aligned_addr
  let first := target_mask m aligned_addr target w / 2 ^ diff
  if diff > 0 ∧ first > 0 then wrapI64 ((ctz first : Int) + start_index)
  else
    let r := string_find_char_scan w m target aligned_addr diff (wrapU64 str.len)
      18446744073709551616 0 (if diff > 0 then (w : Int) else 0)
    if r.1 > 0 then
      wrapI64 ((ctz r.1 : Int) + wrapI64 (r.2 - (w : Int)) - (diff : Int) + start_index)
    else -1

/-- The function `string_find_char` as compiled with AVX (str.h:181-209). -/
def string_find_char_avx (m : Mem) (str : string_t) (start_index : Int) (target : Byte) : Int :=
  string_find_char_vector 32 m str start_index target

/-- The function `string_find_char` as compiled with SSE2 and without AVX
(str.h:211-239). -/
def string_find_char_sse2 (m : Mem) (str : string_t) (start_index : Int) (target : Byte) : Int :=
  string_find_char_vector 16 m str start_index target

/-- The value `movemask_epi8(cmpeq_epi8(a, b))` for the `w` bytes `a` loaded
from `p1` and `b` loaded from `p2`: bit `k` is set when the two bytes at
offset `k` are equal. -/
def equal_mask (m : Mem) (p1 p2 : Nat) : Nat → Nat
  | 0 => 0
  | k + 1 => equal_mask m p1 p2 k + (if m (p1 + k) = m (p2 + k) then 2 ^ k else 0)

/-- A chunk loop of `string_compare` with lane width `w` and loop bound
`min_len - slack` (str.h:259-268 for `w = 32`, `slack = 30`; 275-284 for
`w = 16`, `slack = 14`), entered with loop variable `i`; `n` bounds the
iterations still to run.  `Sum.inl r`: the function returned `r` from inside
the loop; `Sum.inr i`: the loop ended with loop variable `i`.  The variable
`mov_mask` is the complement, as a `uint32_t`, of the comparison mask. -/
def string_compare_chunks (w : Nat) (slack : Int) (m : Mem) (str1 str2 : string_t)
    (min_len : Int) : Nat → Int → Sum Int Int
  | 0, i => Sum.inr i
  | n + 1, i =>
    if i < wrapI64 (min_len - slack) then
      if 4294967295 - equal_mask m (ptr_add str1.c_str i) (ptr_add str2.c_str i) w > 0 then
        Sum.inl (char_diff
          (m (ptr_add str1.c_str (wrapI64 ((ctz (4294967295 -
            equal_mask m (ptr_add str1.c_str i) (ptr_add str2.c_str i) w) : Int) + i))))
          (m (ptr_add str2.c_str (wrapI64 ((ctz (4294967295 -
            equal_mask m (ptr_add str1.c_str i) (ptr_add str2.c_str i) w) : Int) + i)))))
      else string_compare_chunks w slack m str1 str2 min_len n (wrapI64 (i + (w : Int)))
    else Sum.inr i

/-- The function `string_compare` as compiled with SSE2 and without AVX
(str.h:252-255, 272-294): the 16-byte chunk loop, then the byte loop from
where the chunk loop stopped. -/
def string_compare_sse2 (m : Mem) (str1 str2 : string_t) : Int :=
  if m (ptr_add str1.c_str 0) ≠ m (ptr_add str2.c_str 0) then
    char_diff (m (ptr_add str1.c_str 0)) (m (ptr_add str2.c_str 0))
  else
    let min_len := if str1.len < str2.len then str1.len else str2.len
    match string_compare_chunks 16 14 m str1 str2 min_len (wrapI64 (min_len - 14)).toNat 0 with
    | Sum.inl r => r
    | Sum.inr i => string_compare_loop m str1 str2 min_len (wrapI64 (min_len + 1)).toNat i

/-- The function `string_compare` as compiled with AVX (str.h:252-294): the
32-byte chunk loop, the 16-byte chunk loop, then the byte loop, each from
where the one before stopped. -/
def string_compare_avx (m : Mem) (str1 str2 : string_t) : Int :=
  if m (ptr_add str1.c_str 0) ≠ m (ptr_add str2.c_str 0) then
    char_diff (m (ptr_add str1.c_str 0)) (m (ptr_add str2.c_str 0))
  else
    let min_len := if str1.len < str2.len then str1.len else str2.len
    match string_compare_chunks 32 30 m str1 str2 min_len (wrapI64 (min_len - 30)).toNat 0 with
    | Sum.inl r => r
    | Sum.inr i =>
      match string_compare_chunks 16 14 m str1 str2 min_len (wrapI64 (min_len - 14)).toNat i with
      | Sum.inl r => r
      | Sum.inr j => string_compare_loop m str1 str2 min_len (wrapI64 (min_len + 1)).toNat j

/-! ## Predicates of the contract -/

/-- Memory holds the C string `s` at address `p`: the bytes of `s`, none of
them zero, followed by the terminator. -/
abbrev c_string_at (m : Mem) (p : Nat) (s : List Byte) : Prop :=
  (∀ i, i < s.length → m (p + i) = s.getD i 0) ∧ m (p + s.length) = 0 ∧ (0 : Byte) ∉ s

/-- The integer is a value of `int64_t`. -/
abbrev is_int64 (x : Int) : Prop := -9223372036854775808 ≤ x ∧ x < 9223372036854775808

/-- The allocation call `f`, made in world `w` on behalf of a caller whose
source bytes are the `n` bytes at `p`, succeeds: it returns a non-null block
and leaves the source bytes as they were. -/
abbrev alloc_succeeds {σ : Type} (f : Ext σ Nat) (w : World σ) (p n : Nat) : Prop :=
  (f w.mem w.st).1 ≠ 0 ∧ ∀ i, i < n → (f w.mem w.st).2.1 (p + i) = w.mem (p + i)

/-- The buffer `r.1`, in the world `r.2`, holds the byte sequence `s`: its
length is the number of bytes of `s`, its capacity equals its length, and its
first `len` bytes are the bytes of `s`. -/
abbrev holds_copy_of {σ : Type} (r : string_t × World σ) (s : List Byte) : Prop :=
  r.1.len = s.length ∧ r.1.capacity = r.1.len ∧
    ∀ i, i < s.length → r.2.mem (r.1.c_str + i) = s.getD i 0

/-- The reallocation call `f` of the block `p`, made in world `w`, succeeds:
it returns a non-null block whose bytes, up to the lesser of the old and the
new size, are the bytes the old block held. -/
abbrev realloc_succeeds {σ : Type} (f : Ext σ Nat) (w : World σ) (p old_size new_size : Nat) :
    Prop :=
  (f w.mem w.st).1 ≠ 0 ∧
    ∀ i, i < old_size → i < new_size → (f w.mem w.st).2.1 ((f w.mem w.st).1 + i) = w.mem (p + i)

/-- The release call `g` leaves the first `k` bytes of the block `q` as they
are, in whatever memory and state it is made. -/
abbrev release_keeps {σ : Type} (g : Ext σ Unit) (q k : Nat) : Prop :=
  ∀ (m : Mem) (st : σ) (i : Nat), i < k → (g m st).2.1 (q + i) = m (q + i)

/-- The result `r` of resizing the buffer `b`, held in world `w`, to capacity
`n`: the call returned 1, the capacity is `n`, the length is that of `b`, and
the first `min(b.len, n)` bytes of the storage are the bytes `b` had. -/
abbrev resized_to {σ : Type} (r : Int × string_t × World σ) (b : string_t) (w : World σ)
    (n : Nat) : Prop :=
  r.1 = 1 ∧ r.2.1.capacity = n ∧ r.2.1.len = b.len ∧
    ∀ i : Nat, (i : Int) < b.len → i < n → r.2.2.mem (r.2.1.c_str + i) = w.mem (b.c_str + i)

/-- The bytes of `target` stand in `str` from index `i` on: the occurrence
ends inside `str`, and byte for byte it is `target`. -/
abbrev occurs_at (m : Mem) (str target : string_t) (i : Nat) : Prop :=
  (i : Int) + target.len ≤ str.len ∧
    ∀ j, j < target.len.toNat → m (str.c_str + i + j) = m (target.c_str + j)

/-! ## Concrete memories and allocators used in the examples -/

/-- Memory `m` with the bytes `bs` written from address `p` on. -/
def poke (m : Mem) (p : Nat) (bs : List Byte) : Mem :=
  fun a => if p ≤ a ∧ a < p + bs.length then bs.getD (a - p) 0 else m a

/-- A memory filled with the byte `0xAA`. -/
def junk : Mem := fun _ => 170

/-- A heap that hands out consecutive blocks from a break address (its
private state) and never reuses one; it leaves memory alone, except that
`calloc` clears the block it returns and `realloc` moves the old bytes to the
block it returns. -/
def bump_libc : Libc Nat where
  aligned_alloc := fun _ size m brk => (brk, m, brk + size)
  calloc := fun nmemb size m brk =>
    (brk, (fun a => if brk ≤ a ∧ a < brk + nmemb * size then 0 else m a), brk + nmemb * size)
  free := fun _ m brk => ((), m, brk)
  realloc := fun addr size m brk => (brk, memcpy m brk addr size, brk + size)

/-- A descriptor with `alloc` and `free` but no `realloc`, handing out
consecutive blocks like `bump_libc`. -/
def bump_callbacks : string_allocation_callbacks_t Nat where
  alloc := some (fun _ size _ m brk => (brk, m, brk + size))
  free := some (fun _ _ m brk => ((), m, brk))
  realloc := none
  user_data := 7

/-- A descriptor with `realloc` only, moving the block like `bump_libc`. -/
def bump_callbacks_realloc : string_allocation_callbacks_t Nat where
  alloc := none
  free := none
  realloc := some (fun _ addr size m brk => (brk, memcpy m brk addr size, brk + size))
  user_data := 7

/-- An exhausted heap: every allocation call returns the null pointer. -/
def full_libc : Libc Nat where
  aligned_alloc := fun _ _ m brk => (0, m, brk)
  calloc := fun _ _ m brk => (0, m, brk)
  free := fun _ m brk => ((), m, brk)
  realloc := fun _ _ m brk => (0, m, brk)

/-- A descriptor with `alloc` and `free` but no `realloc`, whose `alloc`
returns the null pointer. -/
def full_callbacks : string_allocation_callbacks_t Nat where
  alloc := some (fun _ _ _ m brk => (0, m, brk))
  free := some (fun _ _ m brk => ((), m, brk))
  realloc := none
  user_data := 7

/-- A descriptor with `realloc` only, which returns the null pointer. -/
def full_callbacks_realloc : string_allocation_callbacks_t Nat where
  alloc := none
  free := none
  realloc := some (fun _ _ _ m brk => (0, m, brk))
  user_data := 7

/-- A descriptor whose three function pointers are null. -/
def null_callbacks : string_allocation_callbacks_t Nat where
  alloc := none
  free := none
  realloc := none
  user_data := 7

/-- The C string "hello world" at address 4096. -/
def mem_hello_world : Mem :=
  poke junk 4096 [104, 101, 108, 108, 111, 32, 119, 111, 114, 108, 100, 0]

/-- The C strings "abX" at 4096 and "abY" at 8192. -/
def mem_abX_abY : Mem := poke (poke junk 4096 [97, 98, 88, 0]) 8192 [97, 98, 89, 0]

/-- The C strings "ab" at 4096 and "ab\x81" at 8192. -/
def mem_ab_ab81 : Mem := poke (poke junk 4096 [97, 98, 0]) 8192 [97, 98, 129, 0]

/-- The C string "hello" at 4096 and the C string "abcdef" at 8192. -/
def mem_hello_abcdef : Mem :=
  poke (poke junk 4096 [104, 101, 108, 108, 111, 0]) 8192 [97, 98, 99, 100, 101, 102, 0]

/-- The bytes "cats are cute!" and a terminator at 4096, where the block
runs to offset 18, and the C string "!!!!" at 8192. -/
def mem_cats_are_cute : Mem :=
  poke (poke junk 4096 [99, 97, 116, 115, 32, 97, 114, 101, 32, 99, 117, 116, 101, 33, 0]) 8192
    [33, 33, 33, 33, 0]

/-- The C string "hi" at 4096. -/
def mem_hi : Mem := poke junk 4096 [104, 105, 0]

/-- World with the empty C string at 4096, break at 65536. -/
def world_empty : World Nat := ⟨poke junk 4096 [0], 65536, []⟩

/-- World with the C string "hi" at 4096, break at 65536. -/
def world_hi : World Nat := ⟨mem_hi, 65536, []⟩


/-- World with "cats" at 4096, break at 65536. -/
def world_cats : World Nat := ⟨poke junk 4096 [99, 97, 116, 115, 0], 65536, []⟩


/-- The C string "hello world" at address 4116, which is 20 bytes above a
multiple of 32. -/
def mem_hello_world_unaligned : Mem :=
  poke junk 4116 [104, 101, 108, 108, 111, 32, 119, 111, 114, 108, 100, 0]

/-- Seventeen times 'a', then 'b', at 4096, and seventeen times 'a', then 'c',
at 8192, both as C strings. -/
def mem_long_pair : Mem :=
  poke (poke junk 4096
    [97, 97, 97, 97, 97, 97, 97, 97, 97, 97, 97, 97, 97, 97, 97, 97, 97, 98, 0]) 8192
    [97, 97, 97, 97, 97, 97, 97, 97, 97, 97, 97, 97, 97, 97, 97, 97, 97, 99, 0]


/-- The C string "\x01" at 4096 and the C string "\x81" at 8192. -/
def mem_01_81 : Mem := poke (poke junk 4096 [1, 0]) 8192 [129, 0]

/-- The C string "a" at 4096 and the C string "c" at 8192. -/
def mem_a_c : Mem := poke (poke junk 4096 [97, 0]) 8192 [99, 0]

/-- The C string "hello" at 4096, the C string "lo" at 8192 and the C string
"xyz" at 12288. -/
def mem_hello_lo_xyz : Mem :=
  poke (poke (poke junk 4096 [104, 101, 108, 108, 111, 0]) 8192 [108, 111, 0]) 12288
    [120, 121, 122, 0]

/-- World with the bytes "abcde" and a terminator at 4096, break at 65536. -/
def world_abcde : World Nat := ⟨poke junk 4096 [97, 98, 99, 100, 101, 0], 65536, []⟩

/-! ## Machine arithmetic -/

theorem wrapI64_of_int64 (x : Int) (h : is_int64 x) : wrapI64 x = x := by
  obtain ⟨h1, h2⟩ := h
  unfold wrapI64
  omega

theorem wrapU64_of_nonneg (x : Int) (h0 : 0 ≤ x) (h1 : x < 18446744073709551616) :
    wrapU64 x = x.toNat := by
  unfold wrapU64
  rw [Int.emod_eq_of_lt h0 h1]

theorem ptr_add_of_nonneg (p : Nat) (i : Int) (h0 : 0 ≤ i)
    (h1 : (p : Int) + i < 18446744073709551616) : ptr_add p i = p + i.toNat := by
  unfold ptr_add
  rw [wrapU64_of_nonneg _ (by omega) h1]
  omega

theorem memcpy_inside (m : Mem) (dst src n i : Nat) (h : i < n) :
    memcpy m dst src n (dst + i) = m (src + i) := by
  unfold memcpy
  rw [if_pos ⟨by omega, by omega⟩]
  congr 1
  omega

theorem memcpy_outside (m : Mem) (dst src n a : Nat) (h : a < dst ∨ dst + n ≤ a) :
    memcpy m dst src n a = m a := by
  unfold memcpy
  rw [if_neg (by omega)]

theorem store_same (m : Mem) (a : Nat) (b : Byte) : store m a b a = b := by
  simp [store]

theorem store_other (m : Mem) (a x : Nat) (b : Byte) (h : x ≠ a) : store m a b x = m x := by
  simp [store, h]

/-! ## `strlen` -/

theorem strlen_from_spec (m : Mem) (p : Nat) :
    ∀ (k fuel i : Nat), k < fuel → (∀ j, j < k → m (p + (i + j)) ≠ 0) → m (p + (i + k)) = 0 →
      strlen_from m p fuel i = i + k := by
  intro k
  induction k with
  | zero =>
    intro fuel i hf _ hz
    obtain ⟨f, rfl⟩ : ∃ f, fuel = f + 1 := ⟨fuel - 1, by omega⟩
    simp only [strlen_from]
    rw [if_pos (by simpa using hz)]
    rfl
  | succ k ih =>
    intro fuel i hf hnz hz
    obtain ⟨f, rfl⟩ : ∃ f, fuel = f + 1 := ⟨fuel - 1, by omega⟩
    simp only [strlen_from]
    rw [if_neg (by simpa using hnz 0 (by omega))]
    rw [ih f (i + 1) (by omega) (fun j hj => by
      have := hnz (j + 1) (by omega)
      rwa [show i + 1 + j = i + (j + 1) by omega]) (by
      rwa [show i + 1 + k = i + (k + 1) by omega])]
    omega

theorem strlen_of_c_string (m : Mem) (p : Nat) (s : List Byte) (h : c_string_at m p s)
    (hlen : s.length < 18446744073709551616) : strlen m p = s.length := by
  obtain ⟨hb, hz, hnz⟩ := h
  unfold strlen
  rw [strlen_from_spec m p s.length _ 0 hlen]
  · omega
  · intro j hj
    rw [Nat.zero_add, hb j hj, List.getD_eq_getElem _ _ hj]
    exact fun h0 => hnz (h0 ▸ List.getElem_mem _)
  · simpa using hz

theorem string_get_of_c_string (m : Mem) (p : Nat) (s : List Byte) (h : c_string_at m p s)
    (hlen : s.length < 9223372036854775808) : string_get m p = ⟨p, s.length, 0⟩ := by
  unfold string_get
  rw [strlen_of_c_string m p s h (by omega), wrapI64_of_int64 _ ⟨by omega, by omega⟩]

/-! ## What the portable search computes -/

theorem string_find_char_loop_miss (m : Mem) (str : string_t) (start_index : Int)
    (target : Byte) (L : Nat) (hL : str.len = L) (hL63 : L < 9223372036854775808)
    (hfit : str.c_str + L ≤ 18446744073709551616) :
    ∀ (n i : Nat), (∀ j, i ≤ j → j < L → m (str.c_str + j) ≠ target) →
      string_find_char_loop m str start_index target n i = -1 := by
  intro n
  induction n with
  | zero => intro i _; rfl
  | succ n ih =>
    intro i hmiss
    simp only [string_find_char_loop]
    by_cases hi : (i : Int) < str.len
    · have hiL : i < L := by omega
      rw [if_pos hi, ptr_add_of_nonneg _ _ (by omega) (by omega), Int.toNat_ofNat,
        if_neg (hmiss i (le_refl i) hiL), wrapI64_of_int64 _ ⟨by omega, by omega⟩]
      exact ih (i + 1) (fun j hj hjL => hmiss j (by omega) hjL)
    · rw [if_neg hi]

theorem string_find_char_loop_hit (m : Mem) (str : string_t) (start_index : Int)
    (target : Byte) (L : Nat) (hL : str.len = L) (hL63 : L < 9223372036854775808)
    (hfit : str.c_str + L ≤ 18446744073709551616) (k : Nat) (hk : k < L)
    (hhit : m (str.c_str + k) = target) :
    ∀ (n i : Nat), i ≤ k → k - i < n → (∀ j, i ≤ j → j < k → m (str.c_str + j) ≠ target) →
      string_find_char_loop m str start_index target n i = wrapI64 (k + start_index) := by
  intro n
  induction n with
  | zero => intro i _ h; omega
  | succ n ih =>
    intro i hik hn hmiss
    simp only [string_find_char_loop]
    rw [if_pos (by omega), ptr_add_of_nonneg _ _ (by omega) (by omega), Int.toNat_ofNat]
    by_cases hi : i = k
    · subst hi
      rw [if_pos hhit]
    · rw [if_neg (hmiss i (le_refl i) (by omega)), wrapI64_of_int64 _ ⟨by omega, by omega⟩]
      exact ih (i + 1) (by omega) (by omega) (fun j hj hjk => hmiss j (by omega) hjk)

/-- What the portable path of `string_find_char` returns, for a string of
`L < 2^63` bytes inside the address space and a start index `s ≥ 0`: when `k`
is the lowest index in `[s, L)` holding the target, the result is `k + s`
reduced to `int64_t` (the index itself only for `s = 0`); when no index in
`[s, L)` holds the target, the result is -1. -/
theorem string_find_char_returns_index_plus_start (m : Mem) (str : string_t) (s : Nat)
    (target : Byte) (L : Nat) (hL : str.len = L) (hL63 : L < 9223372036854775808)
    (hfit : str.c_str + L ≤ 18446744073709551616) :
    (∀ k, s ≤ k → k < L → m (str.c_str + k) = target →
      (∀ j, s ≤ j → j < k → m (str.c_str + j) ≠ target) →
      string_find_char m str s target = wrapI64 ((k : Int) + s)) ∧
    ((∀ j, s ≤ j → j < L → m (str.c_str + j) ≠ target) →
      string_find_char m str s target = -1) := by
  constructor
  · intro k hsk hkL hhit hmiss
    unfold string_find_char
    exact string_find_char_loop_hit m str s target L hL hL63 hfit k hkL hhit _ s hsk
      (by omega) hmiss
  · intro hmiss
    unfold string_find_char
    exact string_find_char_loop_miss m str s target L hL hL63 hfit _ s hmiss

/-! ## What the portable comparison computes -/

theorem string_compare_loop_equal (m : Mem) (a b : string_t) (N : Nat)
    (hN : N + 1 < 9223372036854775808)
    (hfa : a.c_str + N < 18446744073709551616) (hfb : b.c_str + N < 18446744073709551616) :
    ∀ (n i : Nat), (∀ j, i ≤ j → j ≤ N → m (a.c_str + j) = m (b.c_str + j)) →
      string_compare_loop m a b N n i = 0 := by
  intro n
  induction n with
  | zero => intro i _; rfl
  | succ n ih =>
    intro i heq
    simp only [string_compare_loop]
    rw [wrapI64_of_int64 _ ⟨by omega, by omega⟩]
    by_cases hi : (i : Int) < (N : Int) + 1
    · rw [if_pos hi, ptr_add_of_nonneg _ _ (by omega) (by omega),
        ptr_add_of_nonneg _ _ (by omega) (by omega), Int.toNat_ofNat,
        if_neg (not_not.mpr (heq i (le_refl i) (by omega))),
        wrapI64_of_int64 _ ⟨by omega, by omega⟩]
      exact ih (i + 1) (fun j hj hjN => heq j (by omega) hjN)
    · rw [if_neg hi]

theorem string_compare_loop_differ (m : Mem) (a b : string_t) (N : Nat)
    (hN : N + 1 < 9223372036854775808)
    (hfa : a.c_str + N < 18446744073709551616) (hfb : b.c_str + N < 18446744073709551616)
    (k : Nat) (hk : k ≤ N) (hne : m (a.c_str + k) ≠ m (b.c_str + k)) :
    ∀ (n i : Nat), i ≤ k → k - i < n →
      (∀ j, i ≤ j → j < k → m (a.c_str + j) = m (b.c_str + j)) →
      string_compare_loop m a b N n i = char_diff (m (a.c_str + k)) (m (b.c_str + k)) := by
  intro n
  induction n with
  | zero => intro i _ h; omega
  | succ n ih =>
    intro i hik hn heq
    simp only [string_compare_loop]
    rw [wrapI64_of_int64 _ ⟨by omega, by omega⟩, if_pos (by omega),
      ptr_add_of_nonneg _ _ (by omega) (by omega),
      ptr_add_of_nonneg _ _ (by omega) (by omega), Int.toNat_ofNat]
    by_cases hi : i = k
    · subst hi
      rw [if_pos hne]
    · rw [if_neg (not_not.mpr (heq i (le_refl i) (by omega))),
        wrapI64_of_int64 _ ⟨by omega, by omega⟩]
      exact ih (i + 1) (by omega) (by omega) (fun j hj hjk => heq j (by omega) hjk)

/-- What the portable `string_compare` returns, with `N` the smaller of the
two lengths: it looks at the offsets `0, ..., N` of both buffers, offset `N`
included, and at nothing else.  When the two buffers agree on all of them the
result is 0, whatever the two lengths are; otherwise it is the difference of
the two `char` values at the first offset where they differ, reduced to
`int8_t`. -/
theorem string_compare_reads_offsets_through_min_len (m : Mem) (a b : string_t) (N : Nat)
    (hmin : (if a.len < b.len then a.len else b.len) = N)
    (hN : N + 1 < 9223372036854775808)
    (hfa : a.c_str + N < 18446744073709551616) (hfb : b.c_str + N < 18446744073709551616) :
    ((∀ j, j ≤ N → m (a.c_str + j) = m (b.c_str + j)) → string_compare m a b = 0) ∧
    (∀ k, k ≤ N → m (a.c_str + k) ≠ m (b.c_str + k) →
      (∀ j, j < k → m (a.c_str + j) = m (b.c_str + j)) →
      string_compare m a b = char_diff (m (a.c_str + k)) (m (b.c_str + k))) := by
  have ha0 : ptr_add a.c_str 0 = a.c_str + 0 := ptr_add_of_nonneg _ _ (le_refl 0) (by omega)
  have hb0 : ptr_add b.c_str 0 = b.c_str + 0 := ptr_add_of_nonneg _ _ (le_refl 0) (by omega)
  have hfuel : (wrapI64 ((N : Int) + 1)).toNat = N + 1 := by
    rw [wrapI64_of_int64 _ ⟨by omega, by omega⟩]
    omega
  constructor
  · intro heq
    unfold string_compare
    rw [ha0, hb0, if_neg (not_not.mpr (heq 0 (Nat.zero_le N)))]
    simp only [hmin]
    exact string_compare_loop_equal m a b N hN hfa hfb _ 0 (fun j _ hj => heq j hj)
  · intro k hk hne heq
    unfold string_compare
    rw [ha0, hb0]
    by_cases h0 : m (a.c_str + 0) = m (b.c_str + 0)
    · rw [if_neg (not_not.mpr h0)]
      simp only [hmin, hfuel]
      exact string_compare_loop_differ m a b N hN hfa hfb k hk hne _ 0 (Nat.zero_le k)
        (by omega) (fun j _ hj => heq j hj)
    · rw [if_pos h0]
      have hk0 : k = 0 := by
        by_contra hk0
        exact h0 (heq 0 (by omega))
      subst hk0
      rfl

/-! ## Mutation: `string_cat` and `string_copy_into` -/

/-- C3: `string_cat` with room for the source.  For a destination whose
length is non-negative, whose capacity is an `int64_t` and whose storage
lies inside the address space, and a source of non-negative length with
`capacity - len ≥ src.len`: the call returns 1, the length grows by
`src.len`, pointer and capacity stay, the bytes at `[len, len + src.len)` are
the source bytes, the byte at the new length is the terminator, and the
bytes below the old length are as before. -/
theorem string_cat_success (m : Mem) (d s : string_t)
    (hlen : 0 ≤ d.len) (hslen : 0 ≤ s.len) (hcap : d.capacity < 9223372036854775808)
    (hfit : (d.c_str : Int) + d.capacity < 18446744073709551616)
    (hroom : d.capacity - d.len ≥ s.len) :
    (string_cat m d s).1 = 1 ∧
    (string_cat m d s).2.2.len = d.len + s.len ∧
    (string_cat m d s).2.2.capacity = d.capacity ∧
    (string_cat m d s).2.2.c_str = d.c_str ∧
    (∀ i : Nat, (i : Int) < s.len →
      (string_cat m d s).2.1 (d.c_str + d.len.toNat + i) = m (s.c_str + i)) ∧
    (string_cat m d s).2.1 (d.c_str + (d.len + s.len).toNat) = 0 ∧
    (∀ i : Nat, (i : Int) < d.len → (string_cat m d s).2.1 (d.c_str + i) = m (d.c_str + i)) := by
  have hguard : ¬ wrapI64 (d.capacity - d.len) < s.len := by
    rw [wrapI64_of_int64 _ ⟨by omega, by omega⟩]
    omega
  have hsum : wrapI64 (d.len + s.len) = d.len + s.len :=
    wrapI64_of_int64 _ ⟨by omega, by omega⟩
  have hp1 : ptr_add d.c_str d.len = d.c_str + d.len.toNat :=
    ptr_add_of_nonneg _ _ hlen (by omega)
  have hp2 : ptr_add d.c_str (d.len + s.len) = d.c_str + (d.len + s.len).toNat :=
    ptr_add_of_nonneg _ _ (by omega) (by omega)
  have hn : wrapU64 s.len = s.len.toNat := wrapU64_of_nonneg _ hslen (by omega)
  have hcat : string_cat m d s =
      (1, store (memcpy m (d.c_str + d.len.toNat) s.c_str s.len.toNat)
            (d.c_str + (d.len + s.len).toNat) 0,
        ⟨d.c_str, d.len + s.len, d.capacity⟩) := by
    unfold string_cat
    rw [if_neg hguard]
    simp only [hsum, hp1, hp2, hn]
  rw [hcat]
  refine ⟨rfl, rfl, rfl, rfl, ?_, ?_, ?_⟩
  · intro i hi
    show store _ _ _ _ = _
    rw [store_other _ _ _ _ (by omega), memcpy_inside _ _ _ _ _ (by omega)]
  · show store _ _ _ _ = _
    exact store_same _ _ _
  · intro i hi
    show store _ _ _ _ = _
    rw [store_other _ _ _ _ (by omega), memcpy_outside _ _ _ _ _ (by omega)]

/-- C3 (witness): the demonstration program's call.  The destination holds
"cats are cute!" (length 14) in a block of capacity 18 at 4096, the source is
the C string "!!!!" at 8192. -/
theorem string_cat_success_witness :
    ((18 : Int) - 14 ≥ 4) ∧
    (string_cat mem_cats_are_cute ⟨4096, 14, 18⟩ ⟨8192, 4, 0⟩).1 = 1 ∧
    (string_cat mem_cats_are_cute ⟨4096, 14, 18⟩ ⟨8192, 4, 0⟩).2.2 = ⟨4096, 18, 18⟩ ∧
    (∀ i : Nat, i < 4 →
      (string_cat mem_cats_are_cute ⟨4096, 14, 18⟩ ⟨8192, 4, 0⟩).2.1 (4096 + 14 + i) = 33) ∧
    (string_cat mem_cats_are_cute ⟨4096, 14, 18⟩ ⟨8192, 4, 0⟩).2.1 (4096 + 18) = 0 ∧
    (∀ i : Nat, (i : Int) < 14 →
      (string_cat mem_cats_are_cute ⟨4096, 14, 18⟩ ⟨8192, 4, 0⟩).2.1 (4096 + i) =
        mem_cats_are_cute (4096 + i)) :=
  have h := string_cat_success mem_cats_are_cute ⟨4096, 14, 18⟩ ⟨8192, 4, 0⟩
      (by decide) (by decide) (by decide) (by decide) (by decide)
  ⟨by decide, h.1, by decide, by decide, h.2.2.2.2.2.1, h.2.2.2.2.2.2⟩

/-- C4: the capacity guard.  When the subtraction `capacity - len` does not
overflow `int64_t`: if `capacity - len < src.len` then `string_cat` returns 0,
and if `capacity < src.len` then `string_copy_into` returns 0; either way the
memory and the three fields of the destination are exactly as before. -/
theorem string_capacity_guard (m : Mem) (d s : string_t)
    (hsub : is_int64 (d.capacity - d.len)) :
    (d.capacity - d.len < s.len → string_cat m d s = (0, m, d)) ∧
    (d.capacity < s.len → string_copy_into m d s = (0, m, d)) := by
  constructor
  · intro h
    unfold string_cat
    rw [wrapI64_of_int64 _ hsub, if_pos h]
  · intro h
    unfold string_copy_into
    rw [if_pos h]

/-- C4 (witness): a destination one byte short.  With length 14 and capacity
17 there is room for 3 bytes, the source has 4; with capacity 3 a copy of 4
bytes does not fit. -/
theorem string_capacity_guard_witness :
    ((18 : Int) - 1 - 14 < 4 ∧
      string_cat junk ⟨4096, 14, 18 - 1⟩ ⟨8192, 4, 0⟩ = (0, junk, ⟨4096, 14, 18 - 1⟩)) ∧
    ((4 : Int) - 1 < 4 ∧
      string_copy_into junk ⟨4096, 0, 4 - 1⟩ ⟨8192, 4, 0⟩ = (0, junk, ⟨4096, 0, 4 - 1⟩)) :=
  ⟨⟨by decide, (string_capacity_guard junk ⟨4096, 14, 18 - 1⟩ ⟨8192, 4, 0⟩ (by decide)).1
      (by decide)⟩,
   ⟨by decide, (string_capacity_guard junk ⟨4096, 0, 4 - 1⟩ ⟨8192, 4, 0⟩ (by decide)).2
      (by decide)⟩⟩

/-- What a successful `string_copy_into` writes, for a source of length
`0 ≤ len < 2^63 - 1` that fits the capacity: the call returns 1, leaves the
three fields of the destination alone, and the destination's bytes at the
offsets `0, ..., src.len` become the source's bytes at those offsets.  The
byte at offset `src.len` is therefore whatever follows the source's bytes in
memory. -/
theorem string_copy_into_copies_len_plus_one (m : Mem) (d s : string_t)
    (hs0 : 0 ≤ s.len) (hs1 : s.len + 1 < 9223372036854775808) (hcap : d.capacity ≥ s.len) :
    (string_copy_into m d s).1 = 1 ∧ (string_copy_into m d s).2.2 = d ∧
    ∀ i : Nat, (i : Int) ≤ s.len →
      (string_copy_into m d s).2.1 (d.c_str + i) = m (s.c_str + i) := by
  have hn : wrapU64 (wrapI64 (s.len + 1)) = (s.len + 1).toNat := by
    rw [wrapI64_of_int64 _ ⟨by omega, by omega⟩, wrapU64_of_nonneg _ (by omega) (by omega)]
  have hcopy : string_copy_into m d s =
      (1, memcpy m d.c_str s.c_str (s.len + 1).toNat, d) := by
    unfold string_copy_into
    rw [if_neg (by omega), hn]
  rw [hcopy]
  refine ⟨rfl, rfl, ?_⟩
  intro i hi
  exact memcpy_inside _ _ _ _ _ (by omega)

/-! ## Views: `string_get_substring` -/

/-- What `string_get_substring` returns when `index + len` does not overflow
`int64_t`: the view at `c_str + index` of length `len` and capacity 0 when
`index < string.len`, `len ≤ string.len`, `index + len ≤ string.len` and
`len ≠ 0`; the zero-valued buffer otherwise.  The code's test is `len ≠ 0`,
and it has no test of the sign of `index`. -/
theorem string_get_substring_eq (b : string_t) (index len : Int)
    (h : is_int64 (index + len)) :
    string_get_substring b index len =
      if index < b.len ∧ len ≤ b.len ∧ index + len ≤ b.len ∧ len ≠ 0 then
        ⟨ptr_add b.c_str index, len, 0⟩
      else string_zero := by
  unfold string_get_substring
  rw [wrapI64_of_int64 _ h]
  by_cases hc : index < b.len ∧ len ≤ b.len ∧ index + len ≤ b.len ∧ len ≠ 0
  · rw [if_pos hc, if_neg (by omega)]
  · rw [if_neg hc, if_pos (by omega)]

/-! ## Lifecycle: `string_create` and `string_destroy` -/

theorem string_create_size (n : Nat) (h : n < 9223372036854775808) :
    wrapU64 (wrapI64 ((n : Int) + 1)) = n + 1 := by
  unfold wrapI64 wrapU64
  omega

theorem string_create_fill_holds {σ : Type} (w w1 : World σ) (p q : Nat) (s : List Byte)
    (hs : c_string_at w.mem p s) (hlen : s.length < 9223372036854775808)
    (hframe : ∀ i, i < s.length → w1.mem (p + i) = w.mem (p + i)) :
    holds_copy_of (string_create_fill ⟨p, s.length, 0⟩ q w1) s := by
  refine ⟨rfl, rfl, ?_⟩
  intro i hi
  show memcpy w1.mem q p (wrapU64 (s.length : Int)) (q + i) = _
  rw [wrapU64_of_nonneg _ (by omega) (by omega), Int.toNat_ofNat,
    memcpy_inside _ _ _ _ _ hi, hframe i hi, hs.1 i hi]

theorem string_create_default {σ : Type} (L : Libc σ) (w : World σ) (p : Nat) (s : List Byte)
    (hs : c_string_at w.mem p s) (hlen : s.length < 9223372036854775808)
    (hq : (L.aligned_alloc 4 (s.length + 1) w.mem w.st).1 ≠ 0) :
    string_create L p none w =
      string_create_fill ⟨p, s.length, 0⟩ (L.aligned_alloc 4 (s.length + 1) w.mem w.st).1
        (w.invoke (Call.aligned_alloc 4 (s.length + 1)) (L.aligned_alloc 4 (s.length + 1))).2 := by
  unfold string_create
  simp only [string_get_of_c_string w.mem p s hs hlen, string_create_size _ hlen]
  rw [if_neg (by simpa [World.invoke] using hq)]
  rfl

theorem string_create_callbacks {σ : Type} (L : Libc σ) (w : World σ) (p : Nat) (s : List Byte)
    (a : string_allocation_callbacks_t σ) (f : Nat → Nat → Nat → Ext σ Nat)
    (hf : a.alloc = some f)
    (hs : c_string_at w.mem p s) (hlen : s.length < 9223372036854775808)
    (hq : (f a.user_data (s.length + 1) 4 w.mem w.st).1 ≠ 0) :
    string_create L p (some a) w =
      string_create_fill ⟨p, s.length, 0⟩ (f a.user_data (s.length + 1) 4 w.mem w.st).1
        (w.invoke (Call.alloc a.user_data (s.length + 1) 4)
          (f a.user_data (s.length + 1) 4)).2 := by
  unfold string_create
  simp only [string_get_of_c_string w.mem p s hs hlen, string_create_size _ hlen, hf]
  rw [if_neg (by simpa [World.invoke] using hq)]
  rfl

theorem string_destroy_default {σ : Type} (L : Libc σ) (b : string_t) (w : World σ)
    (h1 : b.c_str ≠ 0) (h2 : b.len ≠ 0) :
    string_destroy L b none w = (1, (w.invoke (Call.libc_free b.c_str) (L.free b.c_str)).2) := by
  unfold string_destroy
  rw [if_neg (fun h => h.elim h1 h2)]

theorem string_destroy_callbacks {σ : Type} (L : Libc σ) (b : string_t)
    (a : string_allocation_callbacks_t σ) (g : Nat → Nat → Ext σ Unit) (w : World σ)
    (hg : a.free = some g) (h1 : b.c_str ≠ 0) (h2 : b.len ≠ 0) :
    string_destroy L b (some a) w =
      (1, (w.invoke (Call.free a.user_data b.c_str) (g a.user_data b.c_str)).2) := by
  unfold string_destroy
  rw [if_neg (fun h => h.elim h1 h2)]
  simp only [hg]

/-- C8: create round trip.  Let memory hold the C string `s` (shorter than
`2^63` bytes) at `p`.  With the default allocator, when `aligned_alloc`
succeeds, and with a supplied descriptor that has `alloc`, when that callback
succeeds, the buffer `string_create` returns has `len` equal to the number of
bytes of `s`, `capacity` equal to `len`, and first `len` bytes equal to `s`. -/
theorem string_create_round_trip {σ : Type} (L : Libc σ) (w : World σ) (p : Nat)
    (s : List Byte) (hs : c_string_at w.mem p s) (hlen : s.length < 9223372036854775808) :
    (alloc_succeeds (L.aligned_alloc 4 (s.length + 1)) w p s.length →
      holds_copy_of (string_create L p none w) s) ∧
    (∀ (a : string_allocation_callbacks_t σ) (f : Nat → Nat → Nat → Ext σ Nat),
      a.alloc = some f → alloc_succeeds (f a.user_data (s.length + 1) 4) w p s.length →
      holds_copy_of (string_create L p (some a) w) s) := by
  constructor
  · intro h
    rw [string_create_default L w p s hs hlen h.1]
    exact string_create_fill_holds w _ p _ s hs hlen h.2
  · intro a f hf h
    rw [string_create_callbacks L w p s a f hf hs hlen h.1]
    exact string_create_fill_holds w _ p _ s hs hlen h.2

/-- C8 (witness): "cats" created with the default heap and with a supplied
descriptor, both handing out the block 65536. -/
theorem string_create_round_trip_witness :
    (alloc_succeeds (bump_libc.aligned_alloc 4 ([99, 97, 116, 115].length + 1)) world_cats 4096
        [99, 97, 116, 115].length ∧
      holds_copy_of (string_create bump_libc 4096 none world_cats) [99, 97, 116, 115]) ∧
    (bump_callbacks.alloc = some (fun _ size _ m brk => (brk, m, brk + size)) ∧
      holds_copy_of (string_create bump_libc 4096 (some bump_callbacks) world_cats)
        [99, 97, 116, 115]) :=
  have h := string_create_round_trip bump_libc world_cats 4096 [99, 97, 116, 115]
    (by decide) (by decide)
  ⟨⟨by decide, h.1 (by decide)⟩, ⟨rfl, h.2 bump_callbacks _ rfl (by decide)⟩⟩

/-- C9 (amended): destroy after create of a non-empty source releases exactly
once.  Let memory hold the non-empty C string `s` at `p`.  With the default
allocator, when `aligned_alloc` returns a non-null block, and with a
descriptor that has `alloc` and `free`, when `alloc` returns a non-null
block: `string_create` makes the one allocation call, the buffer it returns
points to that block, and `string_destroy` of that buffer returns 1 and
makes exactly one more call, the release of that block. -/
theorem string_destroy_after_create {σ : Type} (L : Libc σ) (w : World σ) (p : Nat)
    (s : List Byte) (hs : c_string_at w.mem p s) (hne : s ≠ [])
    (hlen : s.length < 9223372036854775808) :
    ((L.aligned_alloc 4 (s.length + 1) w.mem w.st).1 ≠ 0 →
      (string_create L p none w).2.calls = w.calls ++ [Call.aligned_alloc 4 (s.length + 1)] ∧
      (string_create L p none w).1.c_str = (L.aligned_alloc 4 (s.length + 1) w.mem w.st).1 ∧
      (string_destroy L (string_create L p none w).1 none (string_create L p none w).2).1 = 1 ∧
      (string_destroy L (string_create L p none w).1 none (string_create L p none w).2).2.calls =
        (string_create L p none w).2.calls ++
          [Call.libc_free (L.aligned_alloc 4 (s.length + 1) w.mem w.st).1]) ∧
    (∀ (a : string_allocation_callbacks_t σ) (f : Nat → Nat → Nat → Ext σ Nat)
        (g : Nat → Nat → Ext σ Unit),
      a.alloc = some f → a.free = some g →
      (f a.user_data (s.length + 1) 4 w.mem w.st).1 ≠ 0 →
      (string_create L p (some a) w).2.calls =
        w.calls ++ [Call.alloc a.user_data (s.length + 1) 4] ∧
      (string_create L p (some a) w).1.c_str = (f a.user_data (s.length + 1) 4 w.mem w.st).1 ∧
      (string_destroy L (string_create L p (some a) w).1 (some a)
        (string_create L p (some a) w).2).1 = 1 ∧
      (string_destroy L (string_create L p (some a) w).1 (some a)
        (string_create L p (some a) w).2).2.calls =
        (string_create L p (some a) w).2.calls ++
          [Call.free a.user_data (f a.user_data (s.length + 1) 4 w.mem w.st).1]) := by
  have hpos : (s.length : Int) ≠ 0 := by
    have : s.length ≠ 0 := fun h => hne (List.length_eq_zero.mp h)
    omega
  constructor
  · intro hq
    rw [string_create_default L w p s hs hlen hq,
      string_destroy_default L _ _ (by exact hq) (by exact hpos)]
    exact ⟨rfl, rfl, rfl, rfl⟩
  · intro a f g hf hg hq
    rw [string_create_callbacks L w p s a f hf hs hlen hq,
      string_destroy_callbacks L _ a g _ hg (by exact hq) (by exact hpos)]
    exact ⟨rfl, rfl, rfl, rfl⟩

/-- C9 (witness): "cats" created and destroyed, with the default heap and
with a supplied descriptor. -/
theorem string_destroy_after_create_witness :
    (string_destroy bump_libc (string_create bump_libc 4096 none world_cats).1 none
        (string_create bump_libc 4096 none world_cats).2).1 = 1 ∧
    (string_destroy bump_libc (string_create bump_libc 4096 none world_cats).1 none
        (string_create bump_libc 4096 none world_cats).2).2.calls =
      (string_create bump_libc 4096 none world_cats).2.calls ++ [Call.libc_free 65536] ∧
    (string_destroy bump_libc (string_create bump_libc 4096 (some bump_callbacks) world_cats).1
        (some bump_callbacks) (string_create bump_libc 4096 (some bump_callbacks) world_cats).2).1
      = 1 ∧
    (string_destroy bump_libc (string_create bump_libc 4096 (some bump_callbacks) world_cats).1
        (some bump_callbacks)
        (string_create bump_libc 4096 (some bump_callbacks) world_cats).2).2.calls =
      (string_create bump_libc 4096 (some bump_callbacks) world_cats).2.calls ++
        [Call.free 7 65536] :=
  have h := string_destroy_after_create bump_libc world_cats 4096 [99, 97, 116, 115]
    (by decide) (by decide) (by decide)
  have h1 := h.1 (by decide)
  have h2 := h.2 bump_callbacks _ _ rfl rfl (by decide)
  ⟨h1.2.2.1, h1.2.2.2, h2.2.2.1, h2.2.2.2⟩

/-- C10 (amended): `string_destroy` is a no-op for every buffer whose `c_str`
is null or whose `len` is 0, whatever its capacity and whatever the
allocator: it returns 0 and the world, call log included, is as before. -/
theorem string_destroy_noop_of_empty {σ : Type} (L : Libc σ) (b : string_t)
    (allocator : Option (string_allocation_callbacks_t σ)) (w : World σ)
    (h : b.c_str = 0 ∨ b.len = 0) : string_destroy L b allocator w = (0, w) := by
  unfold string_destroy
  rw [if_pos h]

/-- C10 (witness): the borrowed buffer `string_get("")` and the zero-valued
result of `string_get_substring("hi", 0, 5)`. -/
theorem string_destroy_noop_of_empty_witness :
    (string_get world_empty.mem 4096).capacity = 0 ∧
    string_destroy bump_libc (string_get world_empty.mem 4096) none world_empty =
      (0, world_empty) ∧
    (string_get_substring (string_get mem_hi 4096) 0 5).capacity = 0 ∧
    string_destroy bump_libc (string_get_substring (string_get mem_hi 4096) 0 5)
      (some bump_callbacks) world_hi = (0, world_hi) :=
  ⟨by decide,
   string_destroy_noop_of_empty bump_libc _ none world_empty (by decide),
   by decide,
   string_destroy_noop_of_empty bump_libc _ (some bump_callbacks) world_hi (by decide)⟩

/-! ## Lifecycle: `string_resize` -/

theorem string_resize_size (n : Nat) (h : n < 9223372036854775808) :
    wrapU64 ((n : Int) + 1) = n + 1 := by
  unfold wrapU64
  omega

theorem string_resize_default {σ : Type} (L : Libc σ) (b : string_t) (n : Nat) (w : World σ)
    (hn : n < 9223372036854775808) (hp : b.c_str ≠ 0) :
    string_resize L b n none w =
      (1, ⟨(L.realloc b.c_str (n + 1) w.mem w.st).1, b.len, n⟩,
        (w.invoke (Call.libc_realloc b.c_str (n + 1)) (L.realloc b.c_str (n + 1))).2) := by
  unfold string_resize
  simp only [string_resize_size n hn]
  rw [if_neg hp, wrapI64_of_int64 _ ⟨by omega, by omega⟩]
  rfl

theorem string_resize_realloc {σ : Type} (L : Libc σ) (b : string_t) (n : Nat) (w : World σ)
    (a : string_allocation_callbacks_t σ) (f : Nat → Nat → Nat → Ext σ Nat)
    (hf : a.realloc = some f) (hn : n < 9223372036854775808)
    (hq : (f a.user_data b.c_str (n + 1) w.mem w.st).1 ≠ 0) :
    string_resize L b n (some a) w =
      (1, ⟨(f a.user_data b.c_str (n + 1) w.mem w.st).1, b.len, n⟩,
        (w.invoke (Call.realloc a.user_data b.c_str (n + 1))
          (f a.user_data b.c_str (n + 1))).2) := by
  unfold string_resize
  simp only [string_resize_size n hn, hf]
  rw [if_neg (by simpa [World.invoke] using hq), wrapI64_of_int64 _ ⟨by omega, by omega⟩]
  rfl

theorem string_resize_fallback {σ : Type} (L : Libc σ) (b : string_t) (n : Nat) (w : World σ)
    (a : string_allocation_callbacks_t σ) (f : Nat → Nat → Nat → Ext σ Nat)
    (g : Nat → Nat → Ext σ Unit)
    (hr : a.realloc = none) (hf : a.alloc = some f) (hg : a.free = some g)
    (hn : n < 9223372036854775808) (hlen : 0 ≤ b.len) (hlen63 : b.len < 9223372036854775808) :
    string_resize L b n (some a) w =
      (1, ⟨(f a.user_data (n + 1) 16 w.mem w.st).1, b.len, n⟩,
        (World.invoke
          ⟨memcpy (f a.user_data (n + 1) 16 w.mem w.st).2.1
              (f a.user_data (n + 1) 16 w.mem w.st).1 b.c_str (min b.len.toNat n),
            (f a.user_data (n + 1) 16 w.mem w.st).2.2,
            w.calls ++ [Call.alloc a.user_data (n + 1) 16]⟩
          (Call.free a.user_data b.c_str) (g a.user_data b.c_str)).2) := by
  have hmin : (if n < wrapU64 b.len then n else wrapU64 b.len) = min b.len.toNat n := by
    rw [wrapU64_of_nonneg _ hlen (by omega)]
    by_cases h : n < b.len.toNat
    · rw [if_pos h]; omega
    · rw [if_neg h]; omega
  unfold string_resize
  simp only [string_resize_size n hn, hr, hf, hg, hmin]
  rw [wrapI64_of_int64 _ ⟨by omega, by omega⟩]
  rfl

/-- C12 (amended): `string_resize` success for a new capacity that the
`int64_t` field can hold.  Let the buffer `b` satisfy the owned invariant
`0 ≤ len ≤ capacity`, and let the new capacity `n` be below `2^63`.
With the default allocator (and a non-null `c_str`), when `realloc` succeeds;
with a descriptor that has `realloc`, when that callback succeeds; and with a
descriptor that has `alloc` and `free` but no `realloc`, when `alloc` succeeds
and the release leaves the new block alone: the call returns 1, the capacity
becomes `n`, the length is unchanged, and the first `min(len, n)` bytes of
the storage are the bytes the buffer had before the call. -/
theorem string_resize_success {σ : Type} (L : Libc σ) (b : string_t) (n : Nat) (w : World σ)
    (hlen : 0 ≤ b.len) (hinv : b.len ≤ b.capacity) (hcap : b.capacity < 9223372036854775808)
    (hn : n < 9223372036854775808) :
    (b.c_str ≠ 0 →
      realloc_succeeds (L.realloc b.c_str (n + 1)) w b.c_str (b.capacity.toNat + 1) (n + 1) →
      resized_to (string_resize L b n none w) b w n) ∧
    (∀ (a : string_allocation_callbacks_t σ) (f : Nat → Nat → Nat → Ext σ Nat),
      a.realloc = some f →
      realloc_succeeds (f a.user_data b.c_str (n + 1)) w b.c_str (b.capacity.toNat + 1) (n + 1) →
      resized_to (string_resize L b n (some a) w) b w n) ∧
    (∀ (a : string_allocation_callbacks_t σ) (f : Nat → Nat → Nat → Ext σ Nat)
        (g : Nat → Nat → Ext σ Unit),
      a.realloc = none → a.alloc = some f → a.free = some g →
      alloc_succeeds (f a.user_data (n + 1) 16) w b.c_str (min b.len.toNat n) →
      release_keeps (g a.user_data b.c_str) (f a.user_data (n + 1) 16 w.mem w.st).1
        (min b.len.toNat n) →
      resized_to (string_resize L b n (some a) w) b w n) := by
  refine ⟨?_, ?_, ?_⟩
  · intro hp h
    rw [string_resize_default L b n w hn hp]
    refine ⟨rfl, rfl, rfl, ?_⟩
    intro i hi hin
    exact h.2 i (by omega) (by omega)
  · intro a f hf h
    rw [string_resize_realloc L b n w a f hf hn h.1]
    refine ⟨rfl, rfl, rfl, ?_⟩
    intro i hi hin
    exact h.2 i (by omega) (by omega)
  · intro a f g hr hf hg h hkeep
    rw [string_resize_fallback L b n w a f g hr hf hg hn hlen (by omega)]
    refine ⟨rfl, rfl, rfl, ?_⟩
    intro i hi hin
    have hik : i < min b.len.toNat n := by omega
    show (g a.user_data b.c_str _ _).2.1 (_ + i) = _
    rw [hkeep _ _ i hik]
    show memcpy _ _ _ _ (_ + i) = _
    rw [memcpy_inside _ _ _ _ _ hik]
    exact h.2 i hik

/-- C12 (witness): the buffer "abcde" of capacity 5 at 4096 is resized down
to capacity 3 with the default heap, up to capacity 8 with a descriptor that
has `realloc`, and down to 3 with a descriptor that has only `alloc` and
`free`; each time the new block is 65536. -/
theorem string_resize_success_witness :
    resized_to (string_resize bump_libc ⟨4096, 5, 5⟩ 3 none world_abcde) ⟨4096, 5, 5⟩
      world_abcde 3 ∧
    resized_to (string_resize bump_libc ⟨4096, 5, 5⟩ 8 (some bump_callbacks_realloc) world_abcde)
      ⟨4096, 5, 5⟩ world_abcde 8 ∧
    resized_to (string_resize bump_libc ⟨4096, 5, 5⟩ 3 (some bump_callbacks) world_abcde)
      ⟨4096, 5, 5⟩ world_abcde 3 :=
  have h := string_resize_success bump_libc ⟨4096, 5, 5⟩ 3 world_abcde
    (by decide) (by decide) (by decide) (by decide)
  have h8 := string_resize_success bump_libc ⟨4096, 5, 5⟩ 8 world_abcde
    (by decide) (by decide) (by decide) (by decide)
  ⟨h.1 (by decide) (by decide),
   h8.2.1 bump_callbacks_realloc _ rfl (by decide),
   h.2.2 bump_callbacks _ _ rfl rfl rfl (by decide) (fun _ _ _ _ => rfl)⟩

/-- What the default path of `string_copy` leaves at offset `len`: when
`calloc` returns a non-null block whose byte at offset `len` is zero, that
byte is still zero after the copy, for a source of length `0 ≤ len < 2^63 - 1`.
(The paths that take their block from `aligned_alloc` or from a callback have
nothing that clears or writes that byte.) -/
theorem string_copy_default_terminated {σ : Type} (L : Libc σ) (b : string_t) (w : World σ)
    (hlen : 0 ≤ b.len) (hlen63 : b.len + 1 < 9223372036854775808)
    (hq : (L.calloc 1 (b.len.toNat + 1) w.mem w.st).1 ≠ 0)
    (hz : (L.calloc 1 (b.len.toNat + 1) w.mem w.st).2.1
      ((L.calloc 1 (b.len.toNat + 1) w.mem w.st).1 + b.len.toNat) = 0) :
    (string_copy L b none w).1.len = b.len ∧
    (string_copy L b none w).1.capacity = b.len ∧
    (string_copy L b none w).2.mem ((string_copy L b none w).1.c_str + b.len.toNat) = 0 := by
  have hsize : wrapU64 (wrapI64 (b.len + 1)) = b.len.toNat + 1 := by
    unfold wrapI64 wrapU64
    omega
  have hn : wrapU64 b.len = b.len.toNat := wrapU64_of_nonneg _ hlen (by omega)
  have hcopy : string_copy L b none w =
      string_create_fill b (L.calloc 1 (b.len.toNat + 1) w.mem w.st).1
        (w.invoke (Call.calloc 1 (b.len.toNat + 1)) (L.calloc 1 (b.len.toNat + 1))).2 := by
    unfold string_copy
    simp only [hsize]
    rw [if_neg (by simpa [World.invoke] using hq)]
    rfl
  rw [hcopy]
  refine ⟨rfl, rfl, ?_⟩
  show memcpy _ (L.calloc 1 (b.len.toNat + 1) w.mem w.st).1 _ (wrapU64 b.len)
    ((L.calloc 1 (b.len.toNat + 1) w.mem w.st).1 + b.len.toNat) = 0
  rw [hn, memcpy_outside _ _ _ _ _ (Or.inr (le_refl _))]
  exact hz

/-- What `string_resize` does when the `realloc` callback of a descriptor
fails: it returns 0 and the three fields of the buffer are as before.  (The
other two configurations have no such test of the returned block.) -/
theorem string_resize_realloc_failure {σ : Type} (L : Libc σ) (b : string_t) (n : Nat)
    (w : World σ) (a : string_allocation_callbacks_t σ) (f : Nat → Nat → Nat → Ext σ Nat)
    (hf : a.realloc = some f)
    (hq : (f a.user_data b.c_str (wrapU64 ((n : Int) + 1)) w.mem w.st).1 = 0) :
    (string_resize L b n (some a) w).1 = 0 ∧ (string_resize L b n (some a) w).2.1 = b := by
  unfold string_resize
  simp only [hf]
  rw [if_pos (by simpa [World.invoke] using hq)]
  exact ⟨rfl, rfl⟩

/-- What `string_destroy` does with a descriptor that has no `free`: it
returns 0 and makes no call. -/
theorem string_destroy_without_free {σ : Type} (L : Libc σ) (b : string_t) (w : World σ)
    (a : string_allocation_callbacks_t σ) (hg : a.free = none) :
    string_destroy L b (some a) w = (0, w) := by
  unfold string_destroy
  by_cases h : b.c_str = 0 ∨ b.len = 0
  · rw [if_pos h]
  · rw [if_neg h]
    simp only [hg]

/-! ## Comparison in the two orders -/

theorem char_diff_eq_zero_iff (x y : Byte) : char_diff x y = 0 ↔ x = y := by
  have hx := x.isLt
  have hy := y.isLt
  constructor
  · intro h
    apply Fin.ext
    unfold char_diff wrapI8 char_val at h
    split_ifs at h <;> omega
  · intro h
    rw [h]
    unfold char_diff wrapI8
    rw [sub_self]
    rfl

theorem char_diff_swap (x y : Byte) (h : (x.val + 128) % 256 ≠ y.val) :
    char_diff y x = - char_diff x y := by
  have hx := x.isLt
  have hy := y.isLt
  unfold char_diff wrapI8 char_val
  split_ifs <;> omega

/-- What the portable `string_compare` does when its arguments are swapped,
with `N` the smaller of the two lengths.  The result is 0 in one order exactly
when it is 0 in the other.  When the strings differ first at offset `k ≤ N`
and the two bytes there are not 128 apart, the result in one order is the
negation of the result in the other; bytes that are 128 apart give -128 in
both orders. -/
theorem string_compare_swap (m : Mem) (a b : string_t) (N : Nat)
    (hmin : (if a.len < b.len then a.len else b.len) = N)
    (hN : N + 1 < 9223372036854775808)
    (hfa : a.c_str + N < 18446744073709551616) (hfb : b.c_str + N < 18446744073709551616) :
    (string_compare m a b = 0 ↔ string_compare m b a = 0) ∧
    (∀ k, k ≤ N → m (a.c_str + k) ≠ m (b.c_str + k) →
      (∀ j, j < k → m (a.c_str + j) = m (b.c_str + j)) →
      ((m (a.c_str + k)).val + 128) % 256 ≠ (m (b.c_str + k)).val →
      string_compare m b a = - string_compare m a b) := by
  have hmin2 : (if b.len < a.len then b.len else a.len) = N := by
    rw [← hmin]
    split_ifs <;> omega
  have hab := string_compare_reads_offsets_through_min_len m a b N hmin hN hfa hfb
  have hba := string_compare_reads_offsets_through_min_len m b a N hmin2 hN hfb hfa
  constructor
  · by_cases hall : ∀ j, j ≤ N → m (a.c_str + j) = m (b.c_str + j)
    · rw [hab.1 hall, hba.1 (fun j hj => (hall j hj).symm)]
    · have hex : ∃ k, k ≤ N ∧ m (a.c_str + k) ≠ m (b.c_str + k) := by
        by_contra hno
        exact hall (fun j hj => by
          by_contra hne
          exact hno ⟨j, hj, hne⟩)
      have hk := Nat.find_spec hex
      have hlt : ∀ j, j < Nat.find hex → m (a.c_str + j) = m (b.c_str + j) := by
        intro j hj
        by_contra hne
        exact Nat.find_min hex hj ⟨by omega, hne⟩
      rw [hab.2 _ hk.1 hk.2 hlt, hba.2 _ hk.1 (fun h => hk.2 h.symm) (fun j hj => (hlt j hj).symm),
        char_diff_eq_zero_iff, char_diff_eq_zero_iff]
      exact ⟨fun h => (hk.2 h).elim, fun h => (hk.2 h.symm).elim⟩
  · intro k hk hne hlt h128
    rw [hab.2 k hk hne hlt, hba.2 k hk (fun h => hne h.symm) (fun j hj => (hlt j hj).symm)]
    exact char_diff_swap _ _ h128

/-! ## Comparison of a string with itself -/

theorem char_diff_self (b : Byte) : char_diff b b = 0 := by
  unfold char_diff wrapI8
  rw [sub_self]
  rfl

theorem string_compare_loop_self (m : Mem) (x : string_t) (min_len : Int) :
    ∀ (n : Nat) (i : Int), string_compare_loop m x x min_len n i = 0 := by
  intro n
  induction n with
  | zero => intro i; rfl
  | succ n ih =>
    intro i
    simp only [string_compare_loop]
    by_cases hi : i < wrapI64 (min_len + 1)
    · rw [if_pos hi, if_neg (not_not.mpr rfl)]
      exact ih _
    · rw [if_neg hi]

theorem string_compare_chunks_self (w : Nat) (slack : Int) (m : Mem) (x : string_t)
    (min_len : Int) :
    ∀ (n : Nat) (i : Int),
      string_compare_chunks w slack m x x min_len n i = Sum.inl 0 ∨
      ∃ j, string_compare_chunks w slack m x x min_len n i = Sum.inr j := by
  intro n
  induction n with
  | zero => intro i; exact Or.inr ⟨i, rfl⟩
  | succ n ih =>
    intro i
    simp only [string_compare_chunks]
    by_cases hi : i < wrapI64 (min_len - slack)
    · rw [if_pos hi]
      by_cases hm : 4294967295 - equal_mask m (ptr_add x.c_str i) (ptr_add x.c_str i) w > 0
      · rw [if_pos hm, char_diff_self]
        exact Or.inl rfl
      · rw [if_neg hm]
        exact ih _
    · rw [if_neg hi]
      exact Or.inr ⟨i, rfl⟩

/-- C17: `string_compare` is reflexive in every build.  For every memory and
every buffer `x` (any pointer, any length), comparing `x` with itself gives 0
with the byte loop alone, with the 16-byte chunk loop before it, and with the
32-byte and the 16-byte chunk loops before it. -/
theorem string_compare_self (m : Mem) (x : string_t) :
    string_compare m x x = 0 ∧ string_compare_sse2 m x x = 0 ∧ string_compare_avx m x x = 0 := by
  refine ⟨?_, ?_, ?_⟩
  · unfold string_compare
    rw [if_neg (not_not.mpr rfl)]
    exact string_compare_loop_self m x _ _ _
  · unfold string_compare_sse2
    rw [if_neg (not_not.mpr rfl)]
    simp only []
    rcases string_compare_chunks_self 16 14 m x (if x.len < x.len then x.len else x.len)
      (wrapI64 ((if x.len < x.len then x.len else x.len) - 14)).toNat 0 with h | ⟨j, h⟩
    · rw [h]
    · rw [h]
      exact string_compare_loop_self m x _ _ _
  · unfold string_compare_avx
    rw [if_neg (not_not.mpr rfl)]
    simp only []
    rcases string_compare_chunks_self 32 30 m x (if x.len < x.len then x.len else x.len)
      (wrapI64 ((if x.len < x.len then x.len else x.len) - 30)).toNat 0 with h | ⟨j, h⟩
    · rw [h]
    · rw [h]
      simp only []
      rcases string_compare_chunks_self 16 14 m x (if x.len < x.len then x.len else x.len)
        (wrapI64 ((if x.len < x.len then x.len else x.len) - 14)).toNat j with h2 | ⟨k, h2⟩
      · rw [h2]
      · rw [h2]
        exact string_compare_loop_self m x _ _ _

/-! ## Evaluations -/

/-- C1 (code defect): the portable path of `string_find_char` returns
`i + start_index`, not `i`.  In "hello world" the lowest index at or after 1
holding the byte 'o' is 4; the call with `start_index = 1` returns 5.  With
`start_index = 0` the result is the index 4. -/
theorem string_find_char_adds_start_index :
    string_get mem_hello_world 4096 = ⟨4096, 11, 0⟩ ∧
    mem_hello_world (4096 + 4) = 111 ∧
    (∀ i, 1 ≤ i → i < 4 → mem_hello_world (4096 + i) ≠ 111) ∧
    string_find_char mem_hello_world (string_get mem_hello_world 4096) 1 111 = 5 ∧
    string_find_char mem_hello_world (string_get mem_hello_world 4096) 0 111 = 4 := by
  decide

/-- C2 (code defect): `string_compare` reads the byte at offset `min_len` of
both buffers and has no comparison of the lengths.  (1) The views "ab" of "abX"
and "ab" of "abY" have the same length and the same bytes, yet compare as -1.
(2) "ab" is shorter than "ab\x81" and equal to it over two bytes, yet compares
as 127, a positive value.  (3) "abc" against "abd" gives -1. -/
theorem string_compare_reads_past_min_len :
    string_get_substring (string_get mem_abX_abY 4096) 0 2 = ⟨4096, 2, 0⟩ ∧
    string_get_substring (string_get mem_abX_abY 8192) 0 2 = ⟨8192, 2, 0⟩ ∧
    (∀ i, i < 2 → mem_abX_abY (4096 + i) = mem_abX_abY (8192 + i)) ∧
    string_compare mem_abX_abY (string_get_substring (string_get mem_abX_abY 4096) 0 2)
      (string_get_substring (string_get mem_abX_abY 8192) 0 2) = -1 ∧
    string_get mem_ab_ab81 4096 = ⟨4096, 2, 0⟩ ∧
    string_get mem_ab_ab81 8192 = ⟨8192, 3, 0⟩ ∧
    (∀ i, i < 2 → mem_ab_ab81 (4096 + i) = mem_ab_ab81 (8192 + i)) ∧
    string_compare mem_ab_ab81 (string_get mem_ab_ab81 4096) (string_get mem_ab_ab81 8192) = 127 ∧
    string_compare (poke (poke junk 4096 [97, 98, 99, 0]) 8192 [97, 98, 100, 0])
      ⟨4096, 3, 0⟩ ⟨8192, 3, 0⟩ = -1 := by
  decide

/-- C5 (code defect): `string_copy_into` copies `src.len + 1` bytes and writes
no terminator of its own.  With the destination "hello" (capacity 5) and the
source view "abc" of "abcdef", the call returns 1 and leaves the byte 'd', not
the terminator, at offset 3 of the destination. -/
theorem string_copy_into_copies_byte_after_source :
    string_get_substring (string_get mem_hello_abcdef 8192) 0 3 = ⟨8192, 3, 0⟩ ∧
    (string_copy_into mem_hello_abcdef ⟨4096, 5, 5⟩
      (string_get_substring (string_get mem_hello_abcdef 8192) 0 3)).1 = 1 ∧
    (string_copy_into mem_hello_abcdef ⟨4096, 5, 5⟩
      (string_get_substring (string_get mem_hello_abcdef 8192) 0 3)).2.1 (4096 + 3) = 100 ∧
    (string_copy_into mem_hello_abcdef ⟨4096, 5, 5⟩
      (string_get_substring (string_get mem_hello_abcdef 8192) 0 3)).2.1 (4096 + 3) ≠ 0 := by
  decide

/-- C6 (code defect): `string_get_substring` rejects `len == 0` but not a
negative `len`.  For "hello", start 1 and length -1 the condition `len > 0`
fails, yet the result is the view at offset 1 with `len = -1`, not the
zero-valued buffer.  For start 1 and length 3 it is the view "ell". -/
theorem string_get_substring_negative_len :
    string_get mem_hello_abcdef 4096 = ⟨4096, 5, 0⟩ ∧
    string_get_substring (string_get mem_hello_abcdef 4096) 1 (-1) = ⟨4097, -1, 0⟩ ∧
    string_get_substring (string_get mem_hello_abcdef 4096) 1 (-1) ≠ string_zero ∧
    string_get_substring (string_get mem_hello_abcdef 4096) 1 3 = ⟨4097, 3, 0⟩ := by
  decide

/-- C7 (code defect): `string_get_substring` has no lower bound on `index` or
`len`.  For "hi" the range `[-1, 1)` is not inside `[0, 2)`, yet start -1 with
length 2 gives the view that begins one byte before the string; start 0 with
length -2 gives a view of negative length.  Start 0 with length 5 gives the
zero-valued buffer. -/
theorem string_get_substring_out_of_bounds_view :
    string_get mem_hi 4096 = ⟨4096, 2, 0⟩ ∧
    string_get_substring (string_get mem_hi 4096) (-1) 2 = ⟨4095, 2, 0⟩ ∧
    string_get_substring (string_get mem_hi 4096) (-1) 2 ≠ string_zero ∧
    string_get_substring (string_get mem_hi 4096) 0 (-2) = ⟨4096, -2, 0⟩ ∧
    string_get_substring (string_get mem_hi 4096) 0 5 = string_zero := by
  decide

/-- C9 (counterexample): for the empty source and the default allocator,
`string_create` obtains the block 65536 from `aligned_alloc`, and
`string_destroy` of the buffer it returns gives 0 and releases nothing. -/
theorem string_destroy_after_create_empty :
    (string_create bump_libc 4096 none world_empty).1 = ⟨65536, 0, 0⟩ ∧
    (string_create bump_libc 4096 none world_empty).2.calls = [Call.aligned_alloc 4 1] ∧
    (string_destroy bump_libc (string_create bump_libc 4096 none world_empty).1 none
      (string_create bump_libc 4096 none world_empty).2).1 = 0 ∧
    releases (string_destroy bump_libc (string_create bump_libc 4096 none world_empty).1 none
      (string_create bump_libc 4096 none world_empty).2).2.calls = [] ∧
    ¬ ((string_destroy bump_libc (string_create bump_libc 4096 none world_empty).1 none
      (string_create bump_libc 4096 none world_empty).2).1 = 1 ∧
      releases (string_destroy bump_libc (string_create bump_libc 4096 none world_empty).1 none
        (string_create bump_libc 4096 none world_empty).2).2.calls = [65536]) := by
  decide

/-- C10 (counterexample): the buffer `string_get("hi")` has capacity 0, and
`string_destroy` releases its pointer and returns 1, with the default
allocator and with a descriptor that has `free`; so does the destroy of the
view `string_get_substring("hi", 0, 1)`. -/
theorem string_destroy_releases_borrowed :
    string_get mem_hi 4096 = ⟨4096, 2, 0⟩ ∧
    (string_destroy bump_libc (string_get mem_hi 4096) none world_hi).1 = 1 ∧
    (string_destroy bump_libc (string_get mem_hi 4096) none world_hi).2.calls =
      [Call.libc_free 4096] ∧
    (string_destroy bump_libc (string_get mem_hi 4096) (some bump_callbacks) world_hi).1 = 1 ∧
    (string_destroy bump_libc (string_get mem_hi 4096) (some bump_callbacks) world_hi).2.calls =
      [Call.free 7 4096] ∧
    (string_get_substring (string_get mem_hi 4096) 0 1).capacity = 0 ∧
    (string_destroy bump_libc (string_get_substring (string_get mem_hi 4096) 0 1) none
      world_hi).1 = 1 ∧
    releases (string_destroy bump_libc (string_get_substring (string_get mem_hi 4096) 0 1) none
      world_hi).2.calls = [4096] := by
  decide

/-- C11 (code defect): a failed reallocation is not always reported.  The
buffer {4096, len 5, capacity 5} is resized to 8 on an exhausted heap.  With
the default allocator `realloc` returns null, yet `string_resize` returns 1
and leaves {null, 5, 8}: the test after the call is on the old pointer.  With
a descriptor that has `alloc` and `free`, `alloc` returns null, yet the call
releases the old block, returns 1 and leaves {null, 5, 8}.  With a descriptor
that has `realloc`, the call returns 0 and the buffer is as before. -/
theorem string_resize_failure_not_reported :
    (string_resize full_libc ⟨4096, 5, 5⟩ 8 none world_abcde).1 = 1 ∧
    (string_resize full_libc ⟨4096, 5, 5⟩ 8 none world_abcde).2.1 = ⟨0, 5, 8⟩ ∧
    (string_resize full_libc ⟨4096, 5, 5⟩ 8 none world_abcde).2.2.calls =
      [Call.libc_realloc 4096 9] ∧
    (string_resize full_libc ⟨4096, 5, 5⟩ 8 (some full_callbacks) world_abcde).1 = 1 ∧
    (string_resize full_libc ⟨4096, 5, 5⟩ 8 (some full_callbacks) world_abcde).2.1 = ⟨0, 5, 8⟩ ∧
    (string_resize full_libc ⟨4096, 5, 5⟩ 8 (some full_callbacks) world_abcde).2.2.calls =
      [Call.alloc 7 9 16, Call.free 7 4096] ∧
    (string_resize full_libc ⟨4096, 5, 5⟩ 8 (some full_callbacks_realloc) world_abcde).1 = 0 ∧
    (string_resize full_libc ⟨4096, 5, 5⟩ 8 (some full_callbacks_realloc) world_abcde).2.1 =
      ⟨4096, 5, 5⟩ := by
  decide

/-- C13 (code defect): `string_find_substring` returns 0 for every input.
In "hello" the target "lo" occurs at index 3 and at no lower index, and the
call from index 0 returns 0; the target "xyz" occurs nowhere in "hello", and
the call returns 0, not -1. -/
theorem string_find_substring_is_stub :
    string_get mem_hello_lo_xyz 4096 = ⟨4096, 5, 0⟩ ∧
    string_get mem_hello_lo_xyz 8192 = ⟨8192, 2, 0⟩ ∧
    string_get mem_hello_lo_xyz 12288 = ⟨12288, 3, 0⟩ ∧
    occurs_at mem_hello_lo_xyz ⟨4096, 5, 0⟩ ⟨8192, 2, 0⟩ 3 ∧
    (∀ i, i < 3 → ¬ occurs_at mem_hello_lo_xyz ⟨4096, 5, 0⟩ ⟨8192, 2, 0⟩ i) ∧
    string_find_substring (string_get mem_hello_lo_xyz 4096) 0
      (string_get mem_hello_lo_xyz 8192) = 0 ∧
    (∀ i, i < 6 → ¬ occurs_at mem_hello_lo_xyz ⟨4096, 5, 0⟩ ⟨12288, 3, 0⟩ i) ∧
    string_find_substring (string_get mem_hello_lo_xyz 4096) 0
      (string_get mem_hello_lo_xyz 12288) = 0 := by
  decide

/-- C14 (code defect): `string_create` and `string_copy` copy `len` bytes
into the new block and write no terminator.  With a heap whose blocks hold
the byte 0xAA, the buffer created from "cats" is {65536, 4, 4} and the byte at
offset 4 of its storage is 0xAA; so is the byte at offset 4 of the copy of
the buffer "cats" made through a descriptor. -/
theorem string_create_writes_no_terminator :
    (string_create bump_libc 4096 none world_cats).1 = ⟨65536, 4, 4⟩ ∧
    (string_create bump_libc 4096 none world_cats).2.mem (65536 + 4) = 170 ∧
    (string_create bump_libc 4096 (some bump_callbacks) world_cats).1 = ⟨65536, 4, 4⟩ ∧
    (string_create bump_libc 4096 (some bump_callbacks) world_cats).2.mem (65536 + 4) = 170 ∧
    (string_copy bump_libc ⟨4096, 4, 0⟩ (some bump_callbacks) world_cats).1 = ⟨65536, 4, 4⟩ ∧
    (string_copy bump_libc ⟨4096, 4, 0⟩ (some bump_callbacks) world_cats).2.mem (65536 + 4) = 170 ∧
    (string_copy bump_libc ⟨4096, 4, 0⟩ (some bump_callbacks) world_cats).2.mem (65536 + 4) ≠ 0 := by
  decide

/-- C15 (code defect): a descriptor without the needed function is not
reported by `string_create`, `string_copy` and `string_resize`.  With the
descriptor whose three pointers are null, `string_create("cats")` and
`string_copy` of the buffer "cats" return {null, 4, 4}, not the zero-valued
buffer, and make no call; `string_resize` of {4096, 5, 5} to 8 returns 1 and
sets the capacity to 8.  `string_destroy` returns 0 and makes no call. -/
theorem string_missing_callback_not_reported :
    (string_create bump_libc 4096 (some null_callbacks) world_cats).1 = ⟨0, 4, 4⟩ ∧
    (string_create bump_libc 4096 (some null_callbacks) world_cats).1 ≠ string_zero ∧
    (string_create bump_libc 4096 (some null_callbacks) world_cats).2.calls = [] ∧
    (string_copy bump_libc ⟨4096, 4, 0⟩ (some null_callbacks) world_cats).1 = ⟨0, 4, 4⟩ ∧
    (string_copy bump_libc ⟨4096, 4, 0⟩ (some null_callbacks) world_cats).2.calls = [] ∧
    (string_resize bump_libc ⟨4096, 5, 5⟩ 8 (some null_callbacks) world_abcde).1 = 1 ∧
    (string_resize bump_libc ⟨4096, 5, 5⟩ 8 (some null_callbacks) world_abcde).2.1 =
      ⟨4096, 5, 8⟩ ∧
    (string_resize bump_libc ⟨4096, 5, 5⟩ 8 (some null_callbacks) world_abcde).2.2.calls = [] ∧
    (string_destroy bump_libc ⟨4096, 5, 5⟩ (some null_callbacks) world_abcde).1 = 0 ∧
    (string_destroy bump_libc ⟨4096, 5, 5⟩ (some null_callbacks) world_abcde).2.calls = [] := by
  decide

/-- C16 (code defect): the difference of two `char` values does not fit
`int8_t`.  For the strings "\x01" and "\x81" the first bytes differ by 128,
and `string_compare` returns -128 in both orders: neither result is
positive. -/
theorem string_compare_both_orders_negative :
    string_get mem_01_81 4096 = ⟨4096, 1, 0⟩ ∧
    string_get mem_01_81 8192 = ⟨8192, 1, 0⟩ ∧
    string_compare mem_01_81 (string_get mem_01_81 4096) (string_get mem_01_81 8192) = -128 ∧
    string_compare mem_01_81 (string_get mem_01_81 8192) (string_get mem_01_81 4096) = -128 ∧
    ¬ (string_compare mem_01_81 (string_get mem_01_81 4096) (string_get mem_01_81 8192) > 0 ↔
      string_compare mem_01_81 (string_get mem_01_81 8192) (string_get mem_01_81 4096) < 0) := by
  decide

/-- C18 (code defect): `string_compare` returns the difference of the two
`char` values at the first offset where the strings differ, not its sign.
For "a" against "c" the result is -2, for "c" against "a" it is 2. -/
theorem string_compare_returns_difference :
    string_get mem_a_c 4096 = ⟨4096, 1, 0⟩ ∧
    string_get mem_a_c 8192 = ⟨8192, 1, 0⟩ ∧
    string_compare mem_a_c (string_get mem_a_c 4096) (string_get mem_a_c 8192) = -2 ∧
    string_compare mem_a_c (string_get mem_a_c 8192) (string_get mem_a_c 4096) = 2 := by
  decide

/-- C19 (code defect): the three paths of `string_find_char` disagree.
(1) For "hello world" at the 32-byte aligned address 4096, start 0 and the
target '\0', the byte loop returns -1 and both vector paths return 11, the
index of the terminator, which is not below `len`.  (2) For the same string 20
bytes above a multiple of 32, start 0 and target 'o', the byte loop and the
AVX path return 4 and the SSE2 path returns -1.  (3) For the aligned string,
start 1 and target 'o', the vector paths return 4 and the byte loop 5. -/
theorem string_find_char_paths_disagree :
    string_get mem_hello_world 4096 = ⟨4096, 11, 0⟩ ∧
    string_find_char mem_hello_world ⟨4096, 11, 0⟩ 0 0 = -1 ∧
    string_find_char_avx mem_hello_world ⟨4096, 11, 0⟩ 0 0 = 11 ∧
    string_find_char_sse2 mem_hello_world ⟨4096, 11, 0⟩ 0 0 = 11 ∧
    string_get mem_hello_world_unaligned 4116 = ⟨4116, 11, 0⟩ ∧
    string_find_char mem_hello_world_unaligned ⟨4116, 11, 0⟩ 0 111 = 4 ∧
    string_find_char_avx mem_hello_world_unaligned ⟨4116, 11, 0⟩ 0 111 = 4 ∧
    string_find_char_sse2 mem_hello_world_unaligned ⟨4116, 11, 0⟩ 0 111 = -1 ∧
    string_find_char mem_hello_world ⟨4096, 11, 0⟩ 1 111 = 5 ∧
    string_find_char_avx mem_hello_world ⟨4096, 11, 0⟩ 1 111 = 4 ∧
    string_find_char_sse2 mem_hello_world ⟨4096, 11, 0⟩ 1 111 = 4 := by
  decide

/-- C20 (code defect): the 16-byte chunk loop of `string_compare` returns
out of its first chunk even when the chunk holds no mismatch.  The two strings
of length 18 agree on their first 17 bytes and differ at offset 17 ('b'
against 'c'): the byte loop returns -1, the SSE2 build and the AVX build
return 0. -/
theorem string_compare_chunk_loop_misses_mismatch :
    string_get mem_long_pair 4096 = ⟨4096, 18, 0⟩ ∧
    string_get mem_long_pair 8192 = ⟨8192, 18, 0⟩ ∧
    (∀ i, i < 17 → mem_long_pair (4096 + i) = mem_long_pair (8192 + i)) ∧
    mem_long_pair (4096 + 17) = 98 ∧ mem_long_pair (8192 + 17) = 99 ∧
    string_compare mem_long_pair ⟨4096, 18, 0⟩ ⟨8192, 18, 0⟩ = -1 ∧
    string_compare_sse2 mem_long_pair ⟨4096, 18, 0⟩ ⟨8192, 18, 0⟩ = 0 ∧
    string_compare_avx mem_long_pair ⟨4096, 18, 0⟩ ⟨8192, 18, 0⟩ = 0 := by
  decide

/-- C12 (counterexample): a new capacity of `2^63` or more does not become
the capacity.  The buffer "abcde" {4096, len 5, capacity 5} is resized through
a descriptor whose `realloc` succeeds.  For `n = 2^63` the callback returns
the block 65536 holding the old bytes, the call returns 1, and the capacity
field is `-2^63`, not `n`.  For `n = 2^64 - 1` the size `n + 1` passed to the
callback is 0, the call returns 1, and the capacity field is -1. -/
theorem string_resize_capacity_wraps :
    realloc_succeeds (fun m brk => (brk, memcpy m brk 4096 9223372036854775809,
        brk + 9223372036854775809)) world_abcde 4096 (5 + 1) (9223372036854775808 + 1) ∧
    (string_resize bump_libc ⟨4096, 5, 5⟩ 9223372036854775808 (some bump_callbacks_realloc)
      world_abcde).1 = 1 ∧
    (string_resize bump_libc ⟨4096, 5, 5⟩ 9223372036854775808 (some bump_callbacks_realloc)
      world_abcde).2.1 = ⟨65536, 5, -9223372036854775808⟩ ∧
    (string_resize bump_libc ⟨4096, 5, 5⟩ 9223372036854775808 (some bump_callbacks_realloc)
      world_abcde).2.2.calls = [Call.realloc 7 4096 9223372036854775809] ∧
    ¬ resized_to (string_resize bump_libc ⟨4096, 5, 5⟩ 9223372036854775808
      (some bump_callbacks_realloc) world_abcde) ⟨4096, 5, 5⟩ world_abcde 9223372036854775808 ∧
    (string_resize bump_libc ⟨4096, 5, 5⟩ 18446744073709551615 (some bump_callbacks_realloc)
      world_abcde).1 = 1 ∧
    (string_resize bump_libc ⟨4096, 5, 5⟩ 18446744073709551615 (some bump_callbacks_realloc)
      world_abcde).2.1 = ⟨65536, 5, -1⟩ ∧
    (string_resize bump_libc ⟨4096, 5, 5⟩ 18446744073709551615 (some bump_callbacks_realloc)
      world_abcde).2.2.calls = [Call.realloc 7 4096 0] ∧
    ¬ resized_to (string_resize bump_libc ⟨4096, 5, 5⟩ 18446744073709551615
      (some bump_callbacks_realloc) world_abcde) ⟨4096, 5, 5⟩ world_abcde 18446744073709551615 :=
  ⟨by decide, by decide, by decide, by decide, fun h => absurd h.2.1 (by decide),
   by decide, by decide, by decide, fun h => absurd h.2.1 (by decide)⟩

end StringLib
